import Mathlib

/-!
Verification of the gold-layer analytics build of the credit-risk pipeline
(`src/glue/build_gold_layer/build_gold_analytics.py`).

The development shallowly embeds the dataframe-level operations of that job as
pure functions over lists of records:

* dataframe rows become structures over `Nat` keys, `Int` dates/timestamps and
  exact rationals (`ℚ`) for money and rates (nullable columns become `Option`);
* `DataFrame.sort_values` becomes a stable insertion sort by the named column;
* `DataFrame.drop_duplicates(subset=[key], keep="first")` becomes
  `drop_duplicates_by`, which keeps the first row of each key;
* `DataFrame.merge(..., how="left")` becomes a `flatMap` pairing each left row
  with every matching right row (one null-extended row when there is no match);
* the S3 read of previously persisted rows inside the upsert functions becomes
  an explicit `Option (List _)` argument (`none` = no parquet files found).

Dates are modelled at the granularity the code uses them: `payment_date`,
`updated_date` are totally ordered timestamps (`Int`), and `due_date` is an
`Int` month index so that `(today.year - x.year) * 12 + (today.month - x.month)`
becomes a subtraction of month indices.
-/

namespace CreditRisk

open List

/-! ### Data model -/

/-- A silver `loan_repayments` row (the columns the gold build reads).
`days_past_due` and `amount_paid` are numeric columns; `due_date` may be null. -/
structure RepaymentRow where
  repayment_id : Nat
  loan_id : Nat
  customer_id : Nat
  due_date : Option Int
  payment_date : Int
  amount_paid : ℚ
  status : String
  days_past_due : ℚ
deriving DecidableEq

/-- A `DimLoan` row: loan key plus the (nullable) characteristics obtained from
the left join against approved applications, and the upsert recency column. -/
structure DimLoanRow where
  loan_id : Nat
  customer_id : Nat
  loan_amount : Option ℚ
  interest_rate : Option ℚ
  term_months : Option ℚ
  approval_status : Option String
  updated_date : Int
deriving DecidableEq

/-- A `DimCustomer` row: customer key, demographic fields, nullable credit
fields from the left join against the credit bureau, and the recency column. -/
structure DimCustomerRow where
  customer_id : Nat
  full_name : String
  address : Option String
  credit_score : Option ℚ
  updated_date : Int
deriving DecidableEq

/-- A persisted `FactLoanPerformance` row: `build_fact_loan_performance`
projects the amortization output onto the repayment columns plus the three
computed columns (the joined `loan_amount`/`interest_rate`/`term_months` are
dropped; `delinquency_bucket`, `is_defaulted`, `processing_date` and
`source_file` are carried but read by none of the operations modelled here). -/
structure FactRow where
  repayment_id : Nat
  loan_id : Nat
  customer_id : Nat
  due_date : Option Int
  payment_date : Int
  amount_paid : ℚ
  status : String
  days_past_due : ℚ
  principal_paid : ℚ
  interest_paid : ℚ
  outstanding_balance : ℚ
deriving DecidableEq

/-- A row of the working dataframe inside `calculate_amortization`: the
repayment columns, the loan characteristics brought in by the join to
`dim_loan`, and the three computed columns (initialised to `0.0` by the code
before the loop). -/
structure AmortRow where
  repayment_id : Nat
  loan_id : Nat
  customer_id : Nat
  due_date : Option Int
  payment_date : Int
  amount_paid : ℚ
  status : String
  days_past_due : ℚ
  loan_amount : Option ℚ
  interest_rate : Option ℚ
  term_months : Option ℚ
  interest_paid : ℚ
  principal_paid : ℚ
  outstanding_balance : ℚ
deriving DecidableEq

/-! ### Generic dataframe operations

`drop_duplicates_by k` keeps the first row of each key, like
`drop_duplicates(subset=[k], keep="first")`.  `sort_desc_by t` is a stable
descending sort by the column `t`, like `sort_values(t, ascending=False)`. -/

section GenericOps

variable {α : Type} {β : Type} [DecidableEq β]

/-- Worker for `drop_duplicates_by`: `seen` is the set of keys already kept. -/
def dropDupByAux (k : α → β) : List β → List α → List α
  | _, [] => []
  | seen, a :: l =>
    if k a ∈ seen then dropDupByAux k seen l
    else a :: dropDupByAux k (k a :: seen) l

/-- `drop_duplicates(subset=[k], keep="first")`. -/
def drop_duplicates_by (k : α → β) (l : List α) : List α :=
  dropDupByAux k [] l

/-- The ordering used by `sort_values(t, ascending=False)`: `a` may come before
`b` iff `t a ≥ t b`. -/
def descRel (t : α → Int) : α → α → Prop := fun a b => t b ≤ t a

instance descRel_decidable (t : α → Int) : DecidableRel (descRel t) :=
  fun a b => inferInstanceAs (Decidable (t b ≤ t a))

instance descRel_total (t : α → Int) : IsTotal α (descRel t) :=
  ⟨fun a b => (le_total (t b) (t a)).imp id id⟩

instance descRel_trans (t : α → Int) : IsTrans α (descRel t) :=
  ⟨fun _ _ _ h h' => le_trans h' h⟩

/-- Stable descending sort by the column `t`. -/
def sort_desc_by (t : α → Int) (l : List α) : List α :=
  insertionSort (descRel t) l

/-- The ordering used by `sort_values(t)` (ascending). -/
def ascRel (t : α → Int) : α → α → Prop := fun a b => t a ≤ t b

instance ascRel_decidable (t : α → Int) : DecidableRel (ascRel t) :=
  fun a b => inferInstanceAs (Decidable (t a ≤ t b))

instance ascRel_total (t : α → Int) : IsTotal α (ascRel t) :=
  ⟨fun a b => (le_total (t a) (t b)).imp id id⟩

instance ascRel_trans (t : α → Int) : IsTrans α (ascRel t) :=
  ⟨fun _ _ _ h h' => le_trans h h'⟩

/-- Stable ascending sort by the column `t`. -/
def sort_asc_by (t : α → Int) (l : List α) : List α :=
  insertionSort (ascRel t) l

/-- Lexicographic "less or equal" on a `(Nat, Int)` sort key. -/
def lexLe : Nat × Int → Nat × Int → Prop :=
  fun p q => p.1 < q.1 ∨ (p.1 = q.1 ∧ p.2 ≤ q.2)

instance lexLe_decidable : DecidableRel lexLe := by
  intro p q
  exact inferInstanceAs (Decidable (p.1 < q.1 ∨ (p.1 = q.1 ∧ p.2 ≤ q.2)))

theorem lexLe_total (p q : Nat × Int) : lexLe p q ∨ lexLe q p := by
  rcases Nat.lt_trichotomy p.1 q.1 with h | h | h
  · exact Or.inl (Or.inl h)
  · rcases le_total p.2 q.2 with h2 | h2
    · exact Or.inl (Or.inr ⟨h, h2⟩)
    · exact Or.inr (Or.inr ⟨h.symm, h2⟩)
  · exact Or.inr (Or.inl h)

theorem lexLe_trans {p q s : Nat × Int} (h : lexLe p q) (h' : lexLe q s) : lexLe p s := by
  rcases h with h | ⟨h1, h2⟩ <;> rcases h' with h' | ⟨h1', h2'⟩
  · exact Or.inl (lt_trans h h')
  · exact Or.inl (h1' ▸ h)
  · exact Or.inl (h1 ▸ h')
  · exact Or.inr ⟨h1.trans h1', le_trans h2 h2'⟩

theorem lexLe_antisymm {p q : Nat × Int} (h : lexLe p q) (h' : lexLe q p) : p = q := by
  rcases h with h | ⟨h1, h2⟩ <;> rcases h' with h' | ⟨h1', h2'⟩
  · exact absurd h' (Nat.lt_asymm h)
  · exact absurd h (by omega)
  · exact absurd h' (by omega)
  · exact Prod.ext h1 (le_antisymm h2 h2')

/-- The ordering used by `sort_values([c₁, c₂])` for an ascending
`(Nat, Int)`-valued pair of columns. -/
def lexRelBy (f : α → Nat × Int) : α → α → Prop := fun a b => lexLe (f a) (f b)

instance lexRelBy_decidable (f : α → Nat × Int) : DecidableRel (lexRelBy f) :=
  fun a b => inferInstanceAs (Decidable (lexLe (f a) (f b)))

instance lexRelBy_total (f : α → Nat × Int) : IsTotal α (lexRelBy f) :=
  ⟨fun a b => lexLe_total (f a) (f b)⟩

instance lexRelBy_trans (f : α → Nat × Int) : IsTrans α (lexRelBy f) :=
  ⟨fun _ _ _ h h' => lexLe_trans h h'⟩

/-- Stable ascending sort by a `(Nat, Int)` sort key, for
`sort_values([loan_id, payment_date])`. -/
def sort_lex_by (f : α → Nat × Int) (l : List α) : List α :=
  insertionSort (lexRelBy f) l

/-! #### Lemmas about `drop_duplicates_by` -/

theorem mem_dropDupByAux_iff (k : α → β) (x : α) :
    ∀ (seen : List β) (l : List α),
      x ∈ dropDupByAux k seen l ↔
        k x ∉ seen ∧ (l.filter (fun y => decide (k y = k x))).head? = some x := by
  intro seen l
  induction l generalizing seen with
  | nil => simp [dropDupByAux]
  | cons a l ih =>
    by_cases hk : k a = k x
    · have hfilter :
          (a :: l).filter (fun y => decide (k y = k x)) =
            a :: l.filter (fun y => decide (k y = k x)) := by
        rw [List.filter_cons, if_pos (by simpa using hk)]
      by_cases hs : k a ∈ seen
      · rw [dropDupByAux, if_pos hs, ih, hfilter]
        simp only [List.head?_cons, Option.some.injEq]
        constructor
        · rintro ⟨hns, hh⟩
          exact absurd (hk ▸ hs) hns
        · rintro ⟨hns, rfl⟩
          exact absurd (hk ▸ hs) hns
      · rw [dropDupByAux, if_neg hs, hfilter]
        simp only [List.mem_cons, List.head?_cons, Option.some.injEq]
        constructor
        · rintro (rfl | hx)
          · exact ⟨hk ▸ hs, rfl⟩
          · obtain ⟨hns, _⟩ := (ih (k a :: seen)).mp hx
            exact absurd (List.mem_cons_self (k a) seen) (hk ▸ hns)
        · rintro ⟨hns, rfl⟩
          exact Or.inl rfl
    · have hfilter :
          (a :: l).filter (fun y => decide (k y = k x)) =
            l.filter (fun y => decide (k y = k x)) := by
        rw [List.filter_cons, if_neg (by simpa using hk)]
      by_cases hs : k a ∈ seen
      · rw [dropDupByAux, if_pos hs, ih, hfilter]
      · rw [dropDupByAux, if_neg hs, hfilter]
        simp only [List.mem_cons]
        rw [ih (k a :: seen)]
        constructor
        · rintro (rfl | ⟨hns, hh⟩)
          · exact absurd rfl hk
          · exact ⟨fun hc => hns (List.mem_cons_of_mem _ hc), hh⟩
        · rintro ⟨hns, hh⟩
          refine Or.inr ⟨?_, hh⟩
          simp only [List.mem_cons, not_or]
          exact ⟨fun hc => hk hc.symm, hns⟩

theorem mem_drop_duplicates_by_iff (k : α → β) (x : α) (l : List α) :
    x ∈ drop_duplicates_by k l ↔
      (l.filter (fun y => decide (k y = k x))).head? = some x := by
  rw [drop_duplicates_by, mem_dropDupByAux_iff]
  simp

theorem dropDupByAux_sublist (k : α → β) :
    ∀ (seen : List β) (l : List α), dropDupByAux k seen l <+ l := by
  intro seen l
  induction l generalizing seen with
  | nil => exact Sublist.refl _
  | cons a l ih =>
    rw [dropDupByAux]
    split
    · exact (ih seen).cons a
    · exact (ih (k a :: seen)).cons₂ a

theorem drop_duplicates_by_sublist (k : α → β) (l : List α) :
    drop_duplicates_by k l <+ l :=
  dropDupByAux_sublist k [] l

theorem mem_of_mem_drop_duplicates_by {k : α → β} {x : α} {l : List α}
    (h : x ∈ drop_duplicates_by k l) : x ∈ l :=
  (drop_duplicates_by_sublist k l).subset h

theorem nodup_keys_dropDupByAux (k : α → β) :
    ∀ (seen : List β) (l : List α),
      ((dropDupByAux k seen l).map k).Nodup ∧
        ∀ x ∈ dropDupByAux k seen l, k x ∉ seen := by
  intro seen l
  induction l generalizing seen with
  | nil => simp [dropDupByAux]
  | cons a l ih =>
    rw [dropDupByAux]
    split
    · rename_i hs
      exact ih seen
    · rename_i hs
      obtain ⟨hnd, hall⟩ := ih (k a :: seen)
      refine ⟨?_, ?_⟩
      · simp only [List.map_cons, List.nodup_cons]
        refine ⟨?_, hnd⟩
        intro hc
        obtain ⟨y, hy, hky⟩ := List.mem_map.mp hc
        exact hall y hy (by simp [hky])
      · intro x hx
        rcases List.mem_cons.mp hx with rfl | hx
        · exact hs
        · intro hc
          exact hall x hx (List.mem_cons_of_mem _ hc)

theorem nodup_keys_drop_duplicates_by (k : α → β) (l : List α) :
    ((drop_duplicates_by k l).map k).Nodup :=
  (nodup_keys_dropDupByAux k [] l).1

/-- With unique keys, the filter extracting a member's key yields exactly that
member. -/
theorem filter_key_eq_of_nodup {k : α → β} {m : α} {l : List α}
    (hnd : (l.map k).Nodup) (hm : m ∈ l) :
    l.filter (fun y => decide (k y = k m)) = [m] := by
  induction l with
  | nil => cases hm
  | cons a l ih =>
    simp only [List.map_cons, List.nodup_cons] at hnd
    rcases List.mem_cons.mp hm with rfl | hm
    · rw [List.filter_cons, if_pos (by simp)]
      have : l.filter (fun y => decide (k y = k m)) = [] := by
        rw [List.filter_eq_nil_iff]
        intro y hy
        simp only [decide_eq_true_eq]
        intro hc
        exact hnd.1 (hc ▸ List.mem_map_of_mem k hy)
      rw [this]
    · have hka : k a ≠ k m := by
        intro hc
        exact hnd.1 (hc ▸ List.mem_map_of_mem k hm)
      rw [List.filter_cons, if_neg (by simpa using hka)]
      exact ih hnd.2 hm

/-- With unique keys, equal keys force equal rows. -/
theorem key_injOn_of_nodup {k : α → β} {m m' : α} {l : List α}
    (hnd : (l.map k).Nodup) (hm : m ∈ l) (hm' : m' ∈ l) (hk : k m = k m') :
    m = m' := by
  have h1 := filter_key_eq_of_nodup hnd hm
  have h2 : m' ∈ l.filter (fun y => decide (k y = k m)) := by
    rw [List.mem_filter]
    exact ⟨hm', by simp [hk.symm]⟩
  rw [h1] at h2
  exact (List.mem_singleton.mp h2).symm

/-! #### The upsert merge: sort descending by recency, deduplicate on the key -/

/-- The common read-merge body of the three upsert functions:
`concat → sort_values(recency, ascending=False) → drop_duplicates(key, keep="first")`. -/
def upsert_merge (k : α → β) (t : α → Int) (existing new_data : List α) : List α :=
  drop_duplicates_by k (sort_desc_by t (existing ++ new_data))

/-! #### The unstable sort's contract

`sort_values` is called with pandas' default `kind="quicksort"`, which is not
stable: the program only guarantees that the result is *some* re-arrangement
of the rows that is ordered by the sort column.  For claims about re-applying
the merge, the upsert is therefore modelled relationally: `is_upsert_outcome`
holds of every result the program may produce. -/

/-- `l'` is a possible result of an (unstable) descending sort of `L` by `t`:
a permutation of `L` ordered by descending `t`.  (`sort_desc_by` produces one
such arrangement.) -/
def is_desc_arrangement (t : α → Int) (L l' : List α) : Prop :=
  L ~ l' ∧ Sorted (descRel t) l'

/-- `l'` is a possible result of an (unstable) ascending sort of `L` by the
`(Nat, Int)` key `f`. -/
def is_lex_arrangement (f : α → Nat × Int) (L l' : List α) : Prop :=
  L ~ l' ∧ Sorted (lexRelBy f) l'

/-- A possible result of the read-merge (concat, sort descending by recency
with the unstable sort, drop duplicate keys keeping the first row). -/
def is_upsert_outcome (k : α → β) (t : α → Int) (existing new_data result : List α) : Prop :=
  ∃ l', is_desc_arrangement t (existing ++ new_data) l' ∧
    result = drop_duplicates_by k l'

/-- No two distinct rows share both a key and a recency value — the condition
under which the unstable sort's tie order cannot matter. -/
def no_key_recency_ties (k : α → β) (t : α → Int) (L : List α) : Prop :=
  ∀ a ∈ L, ∀ b ∈ L, k a = k b → t a = t b → a = b

instance no_key_recency_ties_dec (k : α → β) (t : α → Int) [DecidableEq α] (L : List α) :
    Decidable (no_key_recency_ties k t L) :=
  inferInstanceAs (Decidable (∀ a ∈ L, ∀ b ∈ L, k a = k b → t a = t b → a = b))

/-- A row that recency-dominates its key, uniquely at the top, survives the
dedup of every descending arrangement. -/
theorem dominant_mem_dedup_of_arrangement (k : α → β) (t : α → Int) {L l' : List α}
    (hperm : L ~ l') (hsort : Sorted (descRel t) l') {x : α} (hx : x ∈ L)
    (hdom : ∀ y ∈ L, k y = k x → t y ≤ t x)
    (huniq : ∀ y ∈ L, k y = k x → t y = t x → y = x) :
    x ∈ drop_duplicates_by k l' := by
  rw [mem_drop_duplicates_by_iff]
  have hxF : x ∈ l'.filter (fun y => decide (k y = k x)) :=
    List.mem_filter.mpr ⟨hperm.subset hx, by simp⟩
  obtain ⟨h, tl, hcons⟩ := List.exists_cons_of_ne_nil (List.ne_nil_of_mem hxF)
  have hhF : h ∈ l'.filter (fun y => decide (k y = k x)) :=
    hcons ▸ List.mem_cons_self h tl
  have hhL : h ∈ L := hperm.mem_iff.mpr ((List.mem_filter.mp hhF).1)
  have hkh : k h = k x := by simpa using (List.mem_filter.mp hhF).2
  have hFs : Sorted (descRel t) (l'.filter (fun y => decide (k y = k x))) :=
    hsort.filter _
  have hhx : h = x := by
    rw [hcons] at hxF hFs
    rcases List.mem_cons.mp hxF with rfl | hx'
    · rfl
    · have hxh : t x ≤ t h := List.rel_of_sorted_cons hFs x hx'
      have hhx' : t h ≤ t x := hdom h hhL hkh
      exact huniq h hhL hkh (le_antisymm hhx' hxh)
  rw [hcons, hhx]
  rfl

/-- Conversely, every survivor of the dedup of a descending arrangement
recency-dominates its key in the original list. -/
theorem mem_dedup_arrangement_dominant (k : α → β) (t : α → Int) {L l' : List α}
    (hperm : L ~ l') (hsort : Sorted (descRel t) l') {x : α}
    (hx : x ∈ drop_duplicates_by k l') :
    x ∈ L ∧ ∀ y ∈ L, k y = k x → t y ≤ t x := by
  have hxL : x ∈ L := hperm.mem_iff.mpr (mem_of_mem_drop_duplicates_by hx)
  refine ⟨hxL, ?_⟩
  intro y hy hky
  have hhead := (mem_drop_duplicates_by_iff k x l').mp hx
  have hyF : y ∈ l'.filter (fun z => decide (k z = k x)) :=
    List.mem_filter.mpr ⟨hperm.subset hy, by simp [hky]⟩
  have hFs : Sorted (descRel t) (l'.filter (fun z => decide (k z = k x))) :=
    hsort.filter _
  cases hF : l'.filter (fun z => decide (k z = k x)) with
  | nil => rw [hF] at hyF; cases hyF
  | cons h tl =>
    rw [hF] at hhead hyF hFs
    have hhx : h = x := by simpa using hhead
    subst hhx
    rcases List.mem_cons.mp hyF with rfl | hy'
    · exact le_refl _
    · exact List.rel_of_sorted_cons hFs y hy'

/-- Core idempotence: under key-recency tie-freedom, re-merging the batch `B`
into any outcome yields the same set of rows, whatever arrangements the two
unstable sorts produce. -/
theorem dedup_arrangement_idempotent (k : α → β) (t : α → Int) [DecidableEq α]
    {S B R1 R2 l1 l2 : List α}
    (htf : no_key_recency_ties k t (S ++ B))
    (hp1 : (S ++ B) ~ l1) (hs1 : Sorted (descRel t) l1)
    (hR1 : R1 ~ drop_duplicates_by k l1)
    (hp2 : (R1 ++ B) ~ l2) (hs2 : Sorted (descRel t) l2)
    (hR2 : R2 ~ drop_duplicates_by k l2) :
    R2 ~ R1 ∧ (R2.map k).Nodup := by
  have hsub1 : ∀ x ∈ R1, x ∈ S ++ B := by
    intro x hx
    exact (mem_dedup_arrangement_dominant k t hp1 hs1 (hR1.mem_iff.mp hx)).1
  have hsub2 : ∀ x ∈ R1 ++ B, x ∈ S ++ B := by
    intro x hx
    rcases List.mem_append.mp hx with hx | hx
    · exact hsub1 x hx
    · exact List.mem_append_right S hx
  have hmem1 : ∀ x, x ∈ R1 ↔
      (x ∈ S ++ B ∧ ∀ y ∈ S ++ B, k y = k x → t y ≤ t x) := by
    intro x
    constructor
    · intro hx
      exact mem_dedup_arrangement_dominant k t hp1 hs1 (hR1.mem_iff.mp hx)
    · rintro ⟨hxL, hdom⟩
      refine hR1.mem_iff.mpr (dominant_mem_dedup_of_arrangement k t hp1 hs1 hxL hdom ?_)
      intro y hy hky hty
      exact htf y hy x hxL hky hty
  have hmem2 : ∀ x, x ∈ R2 ↔
      (x ∈ R1 ++ B ∧ ∀ y ∈ R1 ++ B, k y = k x → t y ≤ t x) := by
    intro x
    constructor
    · intro hx
      exact mem_dedup_arrangement_dominant k t hp2 hs2 (hR2.mem_iff.mp hx)
    · rintro ⟨hxL, hdom⟩
      refine hR2.mem_iff.mpr (dominant_mem_dedup_of_arrangement k t hp2 hs2 hxL hdom ?_)
      intro y hy hky hty
      exact htf y (hsub2 y hy) x (hsub2 x hxL) hky hty
  have hiff : ∀ x, x ∈ R2 ↔ x ∈ R1 := by
    intro x
    rw [hmem2]
    constructor
    · rintro ⟨hxL, hdom⟩
      rcases List.mem_append.mp hxL with hx | hx
      · exact hx
      · have hxSB : x ∈ S ++ B := List.mem_append_right S hx
        rw [hmem1]
        refine ⟨hxSB, ?_⟩
        intro y hy hky
        have hxl1 : x ∈ l1 := hp1.subset hxSB
        have hxF : x ∈ l1.filter (fun z => decide (k z = k x)) :=
          List.mem_filter.mpr ⟨hxl1, by simp⟩
        obtain ⟨h, tl, hcons⟩ :=
          List.exists_cons_of_ne_nil (List.ne_nil_of_mem hxF)
        have hhF : h ∈ l1.filter (fun z => decide (k z = k x)) :=
          hcons ▸ List.mem_cons_self h tl
        have hkh : k h = k x := by simpa using (List.mem_filter.mp hhF).2
        have hhR1 : h ∈ R1 := by
          apply hR1.mem_iff.mpr
          rw [mem_drop_duplicates_by_iff]
          have hfun : (fun z => decide (k z = k h)) = (fun z => decide (k z = k x)) := by
            funext z
            rw [hkh]
          rw [hfun, hcons]
          rfl
        have hyF : y ∈ l1.filter (fun z => decide (k z = k x)) :=
          List.mem_filter.mpr ⟨hp1.subset hy, by simp [hky]⟩
        have hFs : Sorted (descRel t) (l1.filter (fun z => decide (k z = k x))) :=
          hs1.filter _
        have hyh : t y ≤ t h := by
          rw [hcons] at hyF hFs
          rcases List.mem_cons.mp hyF with rfl | hy'
          · exact le_refl _
          · exact List.rel_of_sorted_cons hFs y hy'
        have hhx : t h ≤ t x := hdom h (List.mem_append_left B hhR1) hkh
        exact le_trans hyh hhx
    · intro hx
      refine ⟨List.mem_append_left B hx, ?_⟩
      intro y hy hky
      exact ((hmem1 x).mp hx).2 y (hsub2 y hy) hky
  have hnd2 : (R2.map k).Nodup :=
    ((hR2.map k).nodup_iff).mpr (nodup_keys_drop_duplicates_by k l2)
  have hnd1 : (R1.map k).Nodup :=
    ((hR1.map k).nodup_iff).mpr (nodup_keys_drop_duplicates_by k l1)
  refine ⟨?_, hnd2⟩
  apply List.perm_of_nodup_nodup_toFinset_eq (hnd2.of_map k) (hnd1.of_map k)
  apply Finset.ext
  intro x
  rw [List.mem_toFinset, List.mem_toFinset]
  exact hiff x

/-! #### Equality of sorted permutations with distinct keys -/

theorem eq_of_perm_of_sorted_of_nodup_keys {κ : Type} (key : α → κ) (R : κ → κ → Prop)
    (hanti : ∀ p q, R p q → R q p → p = q) :
    ∀ {l₁ l₂ : List α}, l₁ ~ l₂ →
      Sorted (fun a b => R (key a) (key b)) l₁ →
      Sorted (fun a b => R (key a) (key b)) l₂ →
      l₁.Pairwise (fun a b => key a ≠ key b) → l₁ = l₂ := by
  intro l₁
  induction l₁ with
  | nil =>
    intro l₂ hp _ _ _
    exact hp.nil_eq
  | cons a t₁ ih =>
    intro l₂ hp hs₁ hs₂ hpw
    cases l₂ with
    | nil => exact absurd hp.symm.nil_eq (by simp)
    | cons b t₂ =>
      by_cases hab : a = b
      · subst hab
        rw [ih (hp.cons_inv) hs₁.of_cons hs₂.of_cons hpw.of_cons]
      · exfalso
        have haIn : a ∈ b :: t₂ := hp.subset (List.mem_cons_self a t₁)
        have haT2 : a ∈ t₂ := (List.mem_cons.mp haIn).resolve_left hab
        have hba : R (key b) (key a) := List.rel_of_sorted_cons hs₂ a haT2
        have hbIn : b ∈ a :: t₁ := hp.symm.subset (List.mem_cons_self b t₂)
        have hbT1 : b ∈ t₁ := (List.mem_cons.mp hbIn).resolve_left (fun h => hab h.symm)
        have hab' : R (key a) (key b) := List.rel_of_sorted_cons hs₁ b hbT1
        exact List.rel_of_pairwise_cons hpw hbT1 (hanti _ _ hab' hba)

end GenericOps

/-! ### The three upsert functions

Each function reads the previously persisted rows from S3 (modelled by the
`Option (List _)` argument: `none` when no parquet files exist), then either
returns the new batch unchanged (first run) or concatenates, sorts descending
by the recency column and drops duplicate keys keeping the first row.  The
fact-table variant finally re-sorts ascending by `(loan_id, payment_date)`. -/

/-- `apply_dim_customer_upsert`: key `customer_id`, recency `updated_date`. -/
def apply_dim_customer_upsert (existing : Option (List DimCustomerRow))
    (new_data : List DimCustomerRow) : List DimCustomerRow :=
  match existing with
  | some existing_data =>
      upsert_merge (fun r => r.customer_id) (fun r => r.updated_date) existing_data new_data
  | none => new_data

/-- `apply_dim_loan_upsert`: key `loan_id`, recency `updated_date`. -/
def apply_dim_loan_upsert (existing : Option (List DimLoanRow))
    (new_data : List DimLoanRow) : List DimLoanRow :=
  match existing with
  | some existing_data =>
      upsert_merge (fun r => r.loan_id) (fun r => r.updated_date) existing_data new_data
  | none => new_data

/-- `apply_fact_loan_performance_upsert`: key `repayment_id`, recency
`payment_date`, then re-sort chronologically by `(loan_id, payment_date)`. -/
def apply_fact_loan_performance_upsert (existing : Option (List FactRow))
    (new_facts : List FactRow) : List FactRow :=
  match existing with
  | some existing_facts =>
      sort_lex_by (fun r => (r.loan_id, r.payment_date))
        (upsert_merge (fun r => r.repayment_id) (fun r => r.payment_date)
          existing_facts new_facts)
  | none => new_facts

/-- Existing `DimLoan` row for loan `L1` at recency `T1 = 1`. -/
def dimLoanT1 : DimLoanRow :=
  ⟨1, 7, some 1000, some 10, some 12, some "APPROVED", 1⟩

/-- New `DimLoan` row for loan `L1` at recency `T2 = 2` with updated fields. -/
def dimLoanT2 : DimLoanRow :=
  ⟨1, 7, some 2000, some 11, some 24, some "APPROVED", 2⟩

theorem nodup_keys_fact_upsert (ex new_facts : List FactRow) :
    ((apply_fact_loan_performance_upsert (some ex) new_facts).map
      (fun r => r.repayment_id)).Nodup := by
  have hperm :
      (apply_fact_loan_performance_upsert (some ex) new_facts).map
          (fun r => r.repayment_id) ~
        (upsert_merge (fun r => r.repayment_id) (fun r => r.payment_date)
            ex new_facts).map (fun r => r.repayment_id) :=
    List.Perm.map _ (List.perm_insertionSort _ _)
  exact hperm.nodup_iff.mpr
    (nodup_keys_drop_duplicates_by (fun r : FactRow => r.repayment_id) _)

/-- Claim C5: each upsert returns the concatenation of existing and new rows,
sorted descending by the recency column (`updated_date` for the dimensions,
`payment_date` for the facts), with duplicate keys dropped keeping the first,
most recent, row (the fact variant returning those rows re-sorted
chronologically); hence every result has at most one row per key, and merging
the existing `DimLoan` row `dimLoanT1` with the newer `dimLoanT2` for the same
`loan_id` yields exactly the single row `dimLoanT2`. -/
theorem claim_C5_upsert_semantics :
    (∀ ex new_data : List DimCustomerRow,
        apply_dim_customer_upsert (some ex) new_data =
          drop_duplicates_by (fun r => r.customer_id)
            (sort_desc_by (fun r => r.updated_date) (ex ++ new_data))) ∧
    (∀ ex new_data : List DimLoanRow,
        apply_dim_loan_upsert (some ex) new_data =
          drop_duplicates_by (fun r => r.loan_id)
            (sort_desc_by (fun r => r.updated_date) (ex ++ new_data))) ∧
    (∀ ex new_facts : List FactRow,
        apply_fact_loan_performance_upsert (some ex) new_facts ~
          drop_duplicates_by (fun r => r.repayment_id)
            (sort_desc_by (fun r => r.payment_date) (ex ++ new_facts))) ∧
    (∀ ex new_data : List DimCustomerRow,
        ((apply_dim_customer_upsert (some ex) new_data).map
          (fun r => r.customer_id)).Nodup) ∧
    (∀ ex new_data : List DimLoanRow,
        ((apply_dim_loan_upsert (some ex) new_data).map (fun r => r.loan_id)).Nodup) ∧
    (∀ ex new_facts : List FactRow,
        ((apply_fact_loan_performance_upsert (some ex) new_facts).map
          (fun r => r.repayment_id)).Nodup) ∧
    apply_dim_loan_upsert (some [dimLoanT1]) [dimLoanT2] = [dimLoanT2] := by
  refine ⟨fun ex new_data => rfl, fun ex new_data => rfl, ?_, ?_, ?_, ?_, by decide⟩
  · intro ex new_facts
    exact List.perm_insertionSort _ _
  · intro ex new_data
    exact nodup_keys_drop_duplicates_by _ _
  · intro ex new_data
    exact nodup_keys_drop_duplicates_by _ _
  · exact nodup_keys_fact_upsert

/-! #### Claim C6: idempotence of re-applying a batch

`sort_values` uses pandas' default unstable quicksort, so when an existing row
and a batch row share a key *and* a recency value but differ elsewhere, which
of the tied rows survives the dedup is unspecified, and re-applying the batch
may keep a different row.  The relational model `is_upsert_outcome`
(`is_fact_upsert_outcome` with the final chronological re-sort) captures every
result the program may produce. -/

/-- A possible result of `apply_fact_loan_performance_upsert` when persisted
rows exist: merge outcome, then some ascending `(loan_id, payment_date)`
arrangement. -/
def is_fact_upsert_outcome (existing new_facts result : List FactRow) : Prop :=
  ∃ l', is_desc_arrangement (fun r => r.payment_date) (existing ++ new_facts) l' ∧
    is_lex_arrangement (fun r => (r.loan_id, r.payment_date))
      (drop_duplicates_by (fun r => r.repayment_id) l') result

/-- The deterministic embeddings of the three upsert functions are among the
outcomes admitted by the unstable-sort contract. -/
theorem apply_upserts_are_outcomes :
    (∀ ex new_data : List DimCustomerRow,
        is_upsert_outcome (fun r => r.customer_id) (fun r => r.updated_date)
          ex new_data (apply_dim_customer_upsert (some ex) new_data)) ∧
    (∀ ex new_data : List DimLoanRow,
        is_upsert_outcome (fun r => r.loan_id) (fun r => r.updated_date)
          ex new_data (apply_dim_loan_upsert (some ex) new_data)) ∧
    (∀ ex new_facts : List FactRow,
        is_fact_upsert_outcome ex new_facts
          (apply_fact_loan_performance_upsert (some ex) new_facts)) := by
  refine ⟨?_, ?_, ?_⟩
  · intro ex new_data
    exact ⟨sort_desc_by (fun r => r.updated_date) (ex ++ new_data),
      ⟨(List.perm_insertionSort _ _).symm,
        List.sorted_insertionSort (descRel (fun r : DimCustomerRow => r.updated_date)) _⟩,
      rfl⟩
  · intro ex new_data
    exact ⟨sort_desc_by (fun r => r.updated_date) (ex ++ new_data),
      ⟨(List.perm_insertionSort _ _).symm,
        List.sorted_insertionSort (descRel (fun r : DimLoanRow => r.updated_date)) _⟩,
      rfl⟩
  · intro ex new_facts
    exact ⟨sort_desc_by (fun r => r.payment_date) (ex ++ new_facts),
      ⟨(List.perm_insertionSort _ _).symm,
        List.sorted_insertionSort (descRel (fun r : FactRow => r.payment_date)) _⟩,
      (List.perm_insertionSort _ _).symm,
      List.sorted_insertionSort (lexRelBy (fun r : FactRow => (r.loan_id, r.payment_date))) _⟩

/-- An existing fact row. -/
def tieFactX : FactRow := ⟨1, 1, 7, none, 10, 100, "PAID", 0, 88, 12, 1112⟩

/-- A batch row with the same `repayment_id` and the same `payment_date` (the
recency column) but different payload fields. -/
def tieFactY : FactRow := ⟨1, 1, 7, none, 10, 100, "LATE", 5, 88, 12, 1112⟩

/-- Counterexample to claim C6 as stated: with an equal-recency tie between
distinct rows of one key, `[tieFactX]` is a possible first merge result, and
re-applying the same batch to it can return `[tieFactY]` — a different row
set, so the second application is not a no-op for every admissible sort
order. -/
theorem claim_C6_counterexample :
    is_fact_upsert_outcome [tieFactX] [tieFactY] [tieFactX] ∧
    is_fact_upsert_outcome [tieFactX] [tieFactY] [tieFactY] ∧
    ¬ ([tieFactY].Perm [tieFactX]) := by
  refine ⟨⟨[tieFactX, tieFactY], ⟨by decide, by decide⟩, by decide, by decide⟩,
    ⟨[tieFactY, tieFactX], ⟨by decide, by decide⟩, by decide, by decide⟩,
    by decide⟩

/-- Amended claim C6: provided no two distinct rows of `S ++ B` share both a
key and a recency value, re-applying the batch `B` to any outcome of the
first merge yields the same set of rows (a permutation) with no duplicate
keys, for every pair of arrangements the unstable sorts may choose — for the
dimension upserts (key `customer_id` / `loan_id`, recency `updated_date`) and
the fact upsert (key `repayment_id`, recency `payment_date`). -/
theorem claim_C6_upsert_idempotent :
    (∀ (S B R1 R2 : List DimCustomerRow),
        no_key_recency_ties (fun r => r.customer_id) (fun r => r.updated_date) (S ++ B) →
        is_upsert_outcome (fun r => r.customer_id) (fun r => r.updated_date) S B R1 →
        is_upsert_outcome (fun r => r.customer_id) (fun r => r.updated_date) R1 B R2 →
        R2 ~ R1 ∧ (R2.map (fun r => r.customer_id)).Nodup) ∧
    (∀ (S B R1 R2 : List DimLoanRow),
        no_key_recency_ties (fun r => r.loan_id) (fun r => r.updated_date) (S ++ B) →
        is_upsert_outcome (fun r => r.loan_id) (fun r => r.updated_date) S B R1 →
        is_upsert_outcome (fun r => r.loan_id) (fun r => r.updated_date) R1 B R2 →
        R2 ~ R1 ∧ (R2.map (fun r => r.loan_id)).Nodup) ∧
    (∀ (S B R1 R2 : List FactRow),
        no_key_recency_ties (fun r => r.repayment_id) (fun r => r.payment_date) (S ++ B) →
        is_fact_upsert_outcome S B R1 →
        is_fact_upsert_outcome R1 B R2 →
        R2 ~ R1 ∧ (R2.map (fun r => r.repayment_id)).Nodup) := by
  refine ⟨?_, ?_, ?_⟩
  · rintro S B R1 R2 htf ⟨l1, ⟨hp1, hs1⟩, rfl⟩ ⟨l2, ⟨hp2, hs2⟩, rfl⟩
    exact dedup_arrangement_idempotent _ _ htf hp1 hs1 (List.Perm.refl _)
      hp2 hs2 (List.Perm.refl _)
  · rintro S B R1 R2 htf ⟨l1, ⟨hp1, hs1⟩, rfl⟩ ⟨l2, ⟨hp2, hs2⟩, rfl⟩
    exact dedup_arrangement_idempotent _ _ htf hp1 hs1 (List.Perm.refl _)
      hp2 hs2 (List.Perm.refl _)
  · rintro S B R1 R2 htf ⟨l1, ⟨hp1, hs1⟩, hd1, hx1⟩ ⟨l2, ⟨hp2, hs2⟩, hd2, hx2⟩
    exact dedup_arrangement_idempotent _ _ htf hp1 hs1 hd1.symm hp2 hs2 hd2.symm

/-- Witness for the amended C6 at the tie-free `DimLoan` T1/T2 input, with
both outcome hypotheses discharged by explicit arrangements. -/
theorem claim_C6_upsert_idempotent_witness :
    no_key_recency_ties (fun r : DimLoanRow => r.loan_id) (fun r => r.updated_date)
      ([dimLoanT1] ++ [dimLoanT2]) ∧
    is_upsert_outcome (fun r : DimLoanRow => r.loan_id) (fun r => r.updated_date)
      [dimLoanT1] [dimLoanT2] [dimLoanT2] ∧
    is_upsert_outcome (fun r : DimLoanRow => r.loan_id) (fun r => r.updated_date)
      [dimLoanT2] [dimLoanT2] [dimLoanT2] ∧
    ([dimLoanT2].Perm [dimLoanT2] ∧
      ([dimLoanT2].map (fun r : DimLoanRow => r.loan_id)).Nodup) :=
  have h1 : is_upsert_outcome (fun r : DimLoanRow => r.loan_id) (fun r => r.updated_date)
      [dimLoanT1] [dimLoanT2] [dimLoanT2] :=
    ⟨[dimLoanT2, dimLoanT1], ⟨by decide, by decide⟩, by decide⟩
  have h2 : is_upsert_outcome (fun r : DimLoanRow => r.loan_id) (fun r => r.updated_date)
      [dimLoanT2] [dimLoanT2] [dimLoanT2] :=
    ⟨[dimLoanT2, dimLoanT2], ⟨by decide, by decide⟩, by decide⟩
  ⟨by decide, h1, h2,
    claim_C6_upsert_idempotent.2.1 [dimLoanT1] [dimLoanT2] [dimLoanT2] [dimLoanT2]
      (by decide) h1 h2⟩

/-- First fact row of a first-run batch with a duplicated `repayment_id`. -/
def factDupA : FactRow :=
  ⟨1, 1, 7, none, 10, 100, "PAID", 0, 88, 12, 1112⟩

/-- Second fact row sharing `repayment_id = 1` with `factDupA`. -/
def factDupB : FactRow :=
  ⟨1, 1, 7, none, 11, 50, "LATE", 3, 50, 0, 1062⟩

/-- Claim C9: on a first run (no persisted rows), every upsert function
returns the new batch unchanged — no recency sort and no key deduplication —
so duplicate keys inside a first-run batch survive into the result. -/
theorem claim_C9_first_run_passthrough :
    (∀ new_data : List DimCustomerRow, apply_dim_customer_upsert none new_data = new_data) ∧
    (∀ new_data : List DimLoanRow, apply_dim_loan_upsert none new_data = new_data) ∧
    (∀ new_facts : List FactRow,
        apply_fact_loan_performance_upsert none new_facts = new_facts) ∧
    (apply_fact_loan_performance_upsert none [factDupA, factDupB]).map
        (fun r => r.repayment_id) = [1, 1] := by
  refine ⟨fun _ => rfl, fun _ => rfl, fun _ => rfl, by decide⟩

/-! ### The amortization engine -/

/-- The merge of the repayments with
`dim_loan[["loan_id", "loan_amount", "interest_rate", "term_months"]]` on
`loan_id`, `how="left"`: each repayment row pairs with every matching
`dim_loan` row, or with nulls when there is no match.  The three computed
columns are initialised to `0.0` as in the code. -/
def amort_left_join (df : List RepaymentRow) (dim_loan : List DimLoanRow) : List AmortRow :=
  df.flatMap (fun r =>
    let hits := dim_loan.filter (fun d => decide (d.loan_id = r.loan_id))
    if hits.isEmpty then
      [⟨r.repayment_id, r.loan_id, r.customer_id, r.due_date, r.payment_date,
        r.amount_paid, r.status, r.days_past_due, none, none, none, 0, 0, 0⟩]
    else
      hits.map (fun d =>
        ⟨r.repayment_id, r.loan_id, r.customer_id, r.due_date, r.payment_date,
          r.amount_paid, r.status, r.days_past_due, d.loan_amount, d.interest_rate,
          d.term_months, 0, 0, 0⟩))

/-- The sort key of `fact.sort_values(["loan_id", "payment_date"])`. -/
def amortKey (r : AmortRow) : Nat × Int := (r.loan_id, r.payment_date)

/-- One iteration of the inner loop: split `amount_paid` into interest
(`min(amount_paid, running_balance * monthly_rate)`) and principal, and record
the new floored running balance as `outstanding_balance`. -/
def amort_step (monthly_rate running_balance : ℚ) (r : AmortRow) : AmortRow :=
  { r with
    interest_paid := min r.amount_paid (running_balance * monthly_rate),
    principal_paid := r.amount_paid - min r.amount_paid (running_balance * monthly_rate),
    outstanding_balance :=
      max 0 (running_balance -
        (r.amount_paid - min r.amount_paid (running_balance * monthly_rate))) }

/-- The inner loop over one loan's rows: the recorded `outstanding_balance`
of each row is the running balance carried into the next row. -/
def amort_fold (monthly_rate : ℚ) : ℚ → List AmortRow → List AmortRow
  | _, [] => []
  | running_balance, r :: rs =>
    amort_step monthly_rate running_balance r ::
      amort_fold monthly_rate (amort_step monthly_rate running_balance r).outstanding_balance rs

/-- The degraded policy for a loan with missing data: the whole payment is
principal, no interest, zero outstanding balance. -/
def fallback_row (r : AmortRow) : AmortRow :=
  { r with outstanding_balance := 0, principal_paid := r.amount_paid, interest_paid := 0 }

/-- Processing of one loan's (already sorted) rows: the branch on
`pd.isna(initial_balance) or pd.isna(annual_rate)` reads the first row
(`iloc[0]`), and the fold starts from `running_balance = loan_amount` with
`monthly_rate = annual_rate / 100 / 12`. -/
def amortize_loan_group (g : List AmortRow) : List AmortRow :=
  match g with
  | [] => []
  | h :: _ =>
    match h.loan_amount, h.interest_rate with
    | some initial_balance, some annual_rate =>
        amort_fold (annual_rate / 100 / 12) initial_balance g
    | _, _ => g.map fallback_row

/-- `calculate_amortization`: join to `dim_loan`, sort by
`(loan_id, payment_date)`, then process each loan's rows in order.  The code
iterates `fact["loan_id"].unique()` and assigns through a boolean mask; on the
sorted frame this is exactly per-loan group processing, with the output kept
in the sorted order. -/
def calculate_amortization (df : List RepaymentRow) (dim_loan : List DimLoanRow) :
    List AmortRow :=
  let fact := sort_lex_by amortKey (amort_left_join df dim_loan)
  let loan_ids := drop_duplicates_by (fun n => n) (fact.map (fun r => r.loan_id))
  loan_ids.flatMap (fun lid =>
    amortize_loan_group (fact.filter (fun r => decide (r.loan_id = lid))))

/-! #### Elementary facts about the per-loan processing -/

theorem amort_step_loan_id (m bal : ℚ) (r : AmortRow) :
    (amort_step m bal r).loan_id = r.loan_id := rfl

theorem amort_step_ob_nonneg (m bal : ℚ) (r : AmortRow) :
    0 ≤ (amort_step m bal r).outstanding_balance :=
  le_max_left 0 _

theorem amort_step_pp_nonneg (m bal : ℚ) (r : AmortRow) :
    0 ≤ (amort_step m bal r).principal_paid :=
  sub_nonneg.mpr (min_le_left _ _)

theorem amort_step_ob_le (m : ℚ) {bal : ℚ} (hb : 0 ≤ bal) (r : AmortRow) :
    (amort_step m bal r).outstanding_balance ≤ bal :=
  max_le hb (sub_le_self bal (amort_step_pp_nonneg m bal r))

theorem amort_fold_loan_id {m : ℚ} {lid : Nat} :
    ∀ (bal : ℚ) (g : List AmortRow), (∀ r ∈ g, r.loan_id = lid) →
      ∀ r' ∈ amort_fold m bal g, r'.loan_id = lid := by
  intro bal g
  induction g generalizing bal with
  | nil => intro _ r' hr'; cases hr'
  | cons r rs ih =>
    intro hg r' hr'
    rcases List.mem_cons.mp hr' with rfl | hr'
    · exact hg r (List.mem_cons_self r rs)
    · exact ih _ (fun x hx => hg x (List.mem_cons_of_mem r hx)) r' hr'

theorem amortize_loan_group_loan_id {lid : Nat} {g : List AmortRow}
    (hg : ∀ r ∈ g, r.loan_id = lid) :
    ∀ r' ∈ amortize_loan_group g, r'.loan_id = lid := by
  intro r' hr'
  cases g with
  | nil => cases hr'
  | cons h rest =>
    rw [amortize_loan_group] at hr'
    rcases hla : h.loan_amount with _ | la <;> rcases hir : h.interest_rate with _ | ir <;>
      rw [hla, hir] at hr'
    · obtain ⟨x, hx, rfl⟩ := List.mem_map.mp hr'
      exact hg x hx
    · obtain ⟨x, hx, rfl⟩ := List.mem_map.mp hr'
      exact hg x hx
    · obtain ⟨x, hx, rfl⟩ := List.mem_map.mp hr'
      exact hg x hx
    · exact amort_fold_loan_id _ _ hg r' hr'

theorem amort_fold_conservation {m : ℚ} :
    ∀ (bal : ℚ) (g : List AmortRow) (r' : AmortRow), r' ∈ amort_fold m bal g →
      r'.principal_paid + r'.interest_paid = r'.amount_paid := by
  intro bal g
  induction g generalizing bal with
  | nil => intro r' hr'; cases hr'
  | cons r rs ih =>
    intro r' hr'
    rcases List.mem_cons.mp hr' with rfl | hr'
    · simp [amort_step]
    · exact ih _ r' hr'

theorem amortize_loan_group_conservation {g : List AmortRow} :
    ∀ r' ∈ amortize_loan_group g, r'.principal_paid + r'.interest_paid = r'.amount_paid := by
  intro r' hr'
  cases g with
  | nil => cases hr'
  | cons h rest =>
    rw [amortize_loan_group] at hr'
    rcases hla : h.loan_amount with _ | la <;> rcases hir : h.interest_rate with _ | ir <;>
      rw [hla, hir] at hr'
    · obtain ⟨x, _, rfl⟩ := List.mem_map.mp hr'
      simp [fallback_row]
    · obtain ⟨x, _, rfl⟩ := List.mem_map.mp hr'
      simp [fallback_row]
    · obtain ⟨x, _, rfl⟩ := List.mem_map.mp hr'
      simp [fallback_row]
    · exact amort_fold_conservation _ _ r' hr'

theorem amort_fold_ob_nonneg {m : ℚ} :
    ∀ (bal : ℚ) (g : List AmortRow) (r' : AmortRow), r' ∈ amort_fold m bal g →
      0 ≤ r'.outstanding_balance := by
  intro bal g
  induction g generalizing bal with
  | nil => intro r' hr'; cases hr'
  | cons r rs ih =>
    intro r' hr'
    rcases List.mem_cons.mp hr' with rfl | hr'
    · exact amort_step_ob_nonneg m bal r
    · exact ih _ r' hr'

theorem amortize_loan_group_ob_nonneg {g : List AmortRow} :
    ∀ r' ∈ amortize_loan_group g, 0 ≤ r'.outstanding_balance := by
  intro r' hr'
  cases g with
  | nil => cases hr'
  | cons h rest =>
    rw [amortize_loan_group] at hr'
    rcases hla : h.loan_amount with _ | la <;> rcases hir : h.interest_rate with _ | ir <;>
      rw [hla, hir] at hr'
    · obtain ⟨x, _, rfl⟩ := List.mem_map.mp hr'
      simp [fallback_row]
    · obtain ⟨x, _, rfl⟩ := List.mem_map.mp hr'
      simp [fallback_row]
    · obtain ⟨x, _, rfl⟩ := List.mem_map.mp hr'
      simp [fallback_row]
    · exact amort_fold_ob_nonneg _ _ r' hr'

/-- Within one loan, recorded balances never increase from row to row. -/
theorem amort_fold_chain (m : ℚ) :
    ∀ (g : List AmortRow) (bal : ℚ),
      List.Chain' (fun a b => b.outstanding_balance ≤ a.outstanding_balance)
        (amort_fold m bal g) := by
  intro g
  induction g with
  | nil => intro bal; exact List.chain'_nil
  | cons r rs ih =>
    intro bal
    rw [amort_fold]
    apply List.chain'_cons'.mpr
    refine ⟨?_, ih _⟩
    intro y hy
    cases rs with
    | nil => simp [amort_fold] at hy
    | cons r' rs' =>
      rw [amort_fold] at hy
      simp only [List.head?_cons, Option.mem_def, Option.some.injEq] at hy
      subst hy
      exact amort_step_ob_le m (amort_step_ob_nonneg m bal r) r'

theorem chain_map_fallback :
    ∀ g : List AmortRow,
      List.Chain' (fun a b => b.outstanding_balance ≤ a.outstanding_balance)
        (g.map fallback_row) := by
  intro g
  induction g with
  | nil => exact List.chain'_nil
  | cons a rest ih =>
    rw [List.map_cons]
    apply List.chain'_cons'.mpr
    refine ⟨?_, ih⟩
    intro y hy
    cases rest with
    | nil => simp at hy
    | cons b rest' =>
      simp only [List.map_cons, List.head?_cons, Option.mem_def, Option.some.injEq] at hy
      subst hy
      simp [fallback_row]

theorem amortize_loan_group_chain (g : List AmortRow) :
    List.Chain' (fun a b => b.outstanding_balance ≤ a.outstanding_balance)
      (amortize_loan_group g) := by
  cases g with
  | nil => exact List.chain'_nil
  | cons h rest =>
    rw [amortize_loan_group]
    rcases h.loan_amount with _ | la <;> rcases h.interest_rate with _ | ir
    · exact chain_map_fallback _
    · exact chain_map_fallback _
    · exact chain_map_fallback _
    · exact amort_fold_chain _ _ _

/-! #### Extracting one loan's output rows from `calculate_amortization` -/

theorem mem_drop_duplicates_by_id {l : List Nat} {x : Nat} :
    x ∈ drop_duplicates_by (fun n => n) l ↔ x ∈ l := by
  constructor
  · exact mem_of_mem_drop_duplicates_by
  · intro hx
    rw [mem_drop_duplicates_by_iff]
    induction l with
    | nil => cases hx
    | cons a l ih =>
      by_cases hax : a = x
      · subst hax
        rw [List.filter_cons, if_pos (by simp)]
        rfl
      · rw [List.filter_cons, if_neg (by simpa using hax)]
        exact ih ((List.mem_cons.mp hx).resolve_left (fun h => hax h.symm))

theorem flatMap_eq_nil_of_forall {γ δ : Type} {l : List γ} {f : γ → List δ}
    (hf : ∀ y ∈ l, f y = []) : l.flatMap f = [] := by
  induction l with
  | nil => rfl
  | cons a l ih =>
    rw [List.flatMap_cons, hf a (List.mem_cons_self a l), List.nil_append]
    exact ih (fun y hy => hf y (List.mem_cons_of_mem a hy))

theorem flatMap_eq_of_mem_single {γ δ : Type} {l : List γ} {x : γ} {f : γ → List δ}
    (hnd : l.Nodup) (hx : x ∈ l) (hf : ∀ y ∈ l, y ≠ x → f y = []) :
    l.flatMap f = f x := by
  induction l with
  | nil => cases hx
  | cons a l ih =>
    rw [List.flatMap_cons]
    rcases List.mem_cons.mp hx with rfl | hx'
    · have hnil : l.flatMap f = [] := by
        apply flatMap_eq_nil_of_forall
        intro y hy
        exact hf y (List.mem_cons_of_mem x hy)
          (fun h => (List.nodup_cons.mp hnd).1 (h ▸ hy))
      rw [hnil, List.append_nil]
    · have ha : f a = [] := by
        apply hf a (List.mem_cons_self a l)
        intro h
        exact (List.nodup_cons.mp hnd).1 (h ▸ hx')
      rw [ha, List.nil_append]
      exact ih (List.nodup_cons.mp hnd).2 hx' (fun y hy => hf y (List.mem_cons_of_mem a hy))

/-- The rows of `calculate_amortization` for one `loan_id` are exactly the
per-loan processing of that loan's sorted joined rows. -/
theorem calculate_amortization_filter (df : List RepaymentRow) (dim_loan : List DimLoanRow)
    (lid : Nat) :
    (calculate_amortization df dim_loan).filter (fun r => decide (r.loan_id = lid)) =
      amortize_loan_group ((sort_lex_by amortKey (amort_left_join df dim_loan)).filter
        (fun r => decide (r.loan_id = lid))) := by
  set fact := sort_lex_by amortKey (amort_left_join df dim_loan) with hfact
  set loan_ids := drop_duplicates_by (fun n => n) (fact.map (fun r => r.loan_id))
    with hids
  have hnd : loan_ids.Nodup := by
    have := nodup_keys_drop_duplicates_by (fun n : Nat => n) (fact.map (fun r => r.loan_id))
    simpa using this
  have hgroup : ∀ l : Nat, ∀ r' ∈ amortize_loan_group
      (fact.filter (fun r => decide (r.loan_id = l))), r'.loan_id = l := by
    intro l
    apply amortize_loan_group_loan_id
    intro r hr
    simpa using (List.mem_filter.mp hr).2
  have hcalc : calculate_amortization df dim_loan =
      loan_ids.flatMap (fun l =>
        amortize_loan_group (fact.filter (fun r => decide (r.loan_id = l)))) := rfl
  rw [hcalc, List.filter_flatMap]
  by_cases hmem : lid ∈ loan_ids
  · have hstep : ∀ y ∈ loan_ids, y ≠ lid →
        (amortize_loan_group (fact.filter (fun r => decide (r.loan_id = y)))).filter
          (fun r => decide (r.loan_id = lid)) = [] := by
      intro y _ hy
      rw [List.filter_eq_nil_iff]
      intro r' hr'
      simp only [decide_eq_true_eq]
      intro hc
      exact hy ((hgroup y r' hr').symm.trans hc)
    rw [flatMap_eq_of_mem_single hnd hmem hstep, List.filter_eq_self.mpr]
    intro r' hr'
    simp [hgroup lid r' hr']
  · have hnil : fact.filter (fun r => decide (r.loan_id = lid)) = [] := by
      rw [List.filter_eq_nil_iff]
      intro r hr
      simp only [decide_eq_true_eq]
      intro hc
      apply hmem
      rw [hids, mem_drop_duplicates_by_id]
      exact hc ▸ List.mem_map_of_mem (fun r => r.loan_id) hr
    rw [hnil]
    apply flatMap_eq_nil_of_forall
    intro y hy
    rw [List.filter_eq_nil_iff]
    intro r' hr'
    simp only [decide_eq_true_eq]
    intro hc
    have hy_lid : y = lid := (hgroup y r' hr').symm.trans hc
    exact hmem (hy_lid ▸ hy)

theorem amortize_loan_group_cons_fold {h : AmortRow} {t : List AmortRow} {la ir : ℚ}
    (hla : h.loan_amount = some la) (hir : h.interest_rate = some ir) :
    amortize_loan_group (h :: t) = amort_fold (ir / 100 / 12) la (h :: t) := by
  rw [amortize_loan_group, hla, hir]

theorem amortize_loan_group_cons_fallback {h : AmortRow} {t : List AmortRow}
    (hd : h.loan_amount = none ∨ h.interest_rate = none) :
    amortize_loan_group (h :: t) = (h :: t).map fallback_row := by
  rw [amortize_loan_group]
  rcases hla : h.loan_amount with _ | la <;> rcases hir : h.interest_rate with _ | ir
  · rfl
  · rfl
  · rfl
  · exfalso
    rcases hd with hc | hc
    · exact Option.some_ne_none la (hla ▸ hc)
    · exact Option.some_ne_none ir (hir ▸ hc)

/-! #### The amortization claims -/

/-- The `dim_loan` row of the worked example: `loan_amount = 1200`,
`interest_rate = 12`. -/
def loanDimRow : DimLoanRow := ⟨1, 7, some 1200, some 12, some 12, some "APPROVED", 0⟩

/-- The single repayment of the worked example: `amount_paid = 100`. -/
def paymentRow : RepaymentRow := ⟨1, 1, 7, some 0, 1, 100, "PAID", 0⟩

/-- The expected output row of the worked example:
`interest_paid = 12`, `principal_paid = 88`, `outstanding_balance = 1112`. -/
def amortOutRow : AmortRow :=
  ⟨1, 1, 7, some 0, 1, 100, "PAID", 0, some 1200, some 12, some 12, 12, 88, 1112⟩

/-- The same repayment as joined before processing (computed columns zeroed). -/
def joinedRow1 : AmortRow :=
  ⟨1, 1, 7, some 0, 1, 100, "PAID", 0, some 1200, some 12, some 12, 0, 0, 0⟩

/-- A repayment on loan 2, which has no `dim_loan` row. -/
def paymentNoDim : RepaymentRow := ⟨2, 2, 8, none, 3, 40, "LATE", 5⟩

/-- Loan 2's joined row: `loan_amount` and `interest_rate` are null. -/
def joinedNoDim : AmortRow :=
  ⟨2, 2, 8, none, 3, 40, "LATE", 5, none, none, none, 0, 0, 0⟩

/-- Evaluation of the worked example: joining, sorting and grouping involve no
rational arithmetic and are decided; the single fold step is computed by
`norm_num`. -/
theorem amort_example_eval :
    calculate_amortization [paymentRow] [loanDimRow] = [amortOutRow] := by
  have hcalc : calculate_amortization [paymentRow] [loanDimRow] =
      (drop_duplicates_by (fun n => n)
          ((sort_lex_by amortKey (amort_left_join [paymentRow] [loanDimRow])).map
            (fun r => r.loan_id))).flatMap
        (fun lid => amortize_loan_group
          ((sort_lex_by amortKey (amort_left_join [paymentRow] [loanDimRow])).filter
            (fun r => decide (r.loan_id = lid)))) := rfl
  have hfact : sort_lex_by amortKey (amort_left_join [paymentRow] [loanDimRow]) =
      [joinedRow1] := by decide
  rw [hcalc, hfact]
  have hids : drop_duplicates_by (fun n => n) ([joinedRow1].map (fun r => r.loan_id)) =
      [1] := by decide
  rw [hids, List.flatMap_cons, List.flatMap_nil, List.append_nil]
  have hfil : [joinedRow1].filter (fun r => decide (r.loan_id = 1)) = [joinedRow1] := by
    decide
  rw [hfil, @amortize_loan_group_cons_fold joinedRow1 [] 1200 12 rfl rfl]
  simp only [amort_fold, amort_step]
  norm_num [joinedRow1, amortOutRow, min_def, max_def]

/-- Claim C1: `calculate_amortization` processes each loan's rows, sorted by
`(loan_id, payment_date)`, as a fold with `monthly_rate = rate / 100 / 12` and
running balance initialised to `loan_amount`, each row recording
`interest_paid = min(amount_paid, balance * monthly_rate)`,
`principal_paid = amount_paid - interest_paid` and
`outstanding_balance = max 0 (balance - principal_paid)` (the next balance) —
this is `amort_fold`; loans whose first joined row is missing `loan_amount` or
`interest_rate` instead get `fallback_row` applied to every row; and the
worked example (1200 at 12%, one payment of 100) yields 12 / 88 / 1112. -/
theorem claim_C1_amortization :
    calculate_amortization [paymentRow] [loanDimRow] = [amortOutRow] ∧
    (∀ (df : List RepaymentRow) (dim_loan : List DimLoanRow) (lid : Nat) (h : AmortRow)
        (la ir : ℚ),
        ((sort_lex_by amortKey (amort_left_join df dim_loan)).filter
            (fun r => decide (r.loan_id = lid))).head? = some h →
        h.loan_amount = some la → h.interest_rate = some ir →
        (calculate_amortization df dim_loan).filter (fun r => decide (r.loan_id = lid)) =
          amort_fold (ir / 100 / 12) la
            ((sort_lex_by amortKey (amort_left_join df dim_loan)).filter
              (fun r => decide (r.loan_id = lid)))) ∧
    (∀ (df : List RepaymentRow) (dim_loan : List DimLoanRow) (lid : Nat) (h : AmortRow),
        ((sort_lex_by amortKey (amort_left_join df dim_loan)).filter
            (fun r => decide (r.loan_id = lid))).head? = some h →
        (h.loan_amount = none ∨ h.interest_rate = none) →
        (calculate_amortization df dim_loan).filter (fun r => decide (r.loan_id = lid)) =
          ((sort_lex_by amortKey (amort_left_join df dim_loan)).filter
            (fun r => decide (r.loan_id = lid))).map fallback_row) := by
  refine ⟨amort_example_eval, ?_, ?_⟩
  · intro df dim_loan lid h la ir hhead hla hir
    rw [calculate_amortization_filter]
    cases hg : (sort_lex_by amortKey (amort_left_join df dim_loan)).filter
        (fun r => decide (r.loan_id = lid)) with
    | nil => rw [hg] at hhead; cases hhead
    | cons a tl =>
      rw [hg] at hhead
      have ha : a = h := by simpa using hhead
      subst ha
      exact amortize_loan_group_cons_fold hla hir
  · intro df dim_loan lid h hhead hd
    rw [calculate_amortization_filter]
    cases hg : (sort_lex_by amortKey (amort_left_join df dim_loan)).filter
        (fun r => decide (r.loan_id = lid)) with
    | nil => rw [hg] at hhead; cases hhead
    | cons a tl =>
      rw [hg] at hhead
      have ha : a = h := by simpa using hhead
      subst ha
      exact amortize_loan_group_cons_fallback hd

/-- Witness for C1: the fold branch at the worked example (loan 1) and the
missing-data branch at loan 2, with every hypothesis decided concretely. -/
theorem claim_C1_amortization_witness :
    (((sort_lex_by amortKey (amort_left_join [paymentRow] [loanDimRow])).filter
        (fun r => decide (r.loan_id = 1))).head? = some joinedRow1 ∧
      joinedRow1.loan_amount = some 1200 ∧ joinedRow1.interest_rate = some 12 ∧
      (calculate_amortization [paymentRow] [loanDimRow]).filter
          (fun r => decide (r.loan_id = 1)) =
        amort_fold (12 / 100 / 12) 1200
          ((sort_lex_by amortKey (amort_left_join [paymentRow] [loanDimRow])).filter
            (fun r => decide (r.loan_id = 1)))) ∧
    (((sort_lex_by amortKey (amort_left_join [paymentNoDim] [loanDimRow])).filter
        (fun r => decide (r.loan_id = 2))).head? = some joinedNoDim ∧
      (joinedNoDim.loan_amount = none ∨ joinedNoDim.interest_rate = none) ∧
      (calculate_amortization [paymentNoDim] [loanDimRow]).filter
          (fun r => decide (r.loan_id = 2)) =
        ((sort_lex_by amortKey (amort_left_join [paymentNoDim] [loanDimRow])).filter
          (fun r => decide (r.loan_id = 2))).map fallback_row) :=
  ⟨⟨by decide, by decide, by decide,
      claim_C1_amortization.2.1 [paymentRow] [loanDimRow] 1 joinedRow1 1200 12
        (by decide) (by decide) (by decide)⟩,
    ⟨by decide, Or.inl (by decide),
      claim_C1_amortization.2.2 [paymentNoDim] [loanDimRow] 2 joinedNoDim
        (by decide) (Or.inl (by decide))⟩⟩

/-- Claim C2: within each loan (rows in `(loan_id, payment_date)` order) the
recorded `outstanding_balance` never increases from one row to the next, and
it is nonnegative on every output row, on both the fold path and the
missing-data fallback path. -/
theorem claim_C2_balance_monotone :
    ∀ (df : List RepaymentRow) (dim_loan : List DimLoanRow),
      (∀ lid : Nat,
        List.Chain' (fun a b => b.outstanding_balance ≤ a.outstanding_balance)
          ((calculate_amortization df dim_loan).filter (fun r => decide (r.loan_id = lid)))) ∧
      ∀ r ∈ calculate_amortization df dim_loan, 0 ≤ r.outstanding_balance := by
  intro df dim_loan
  constructor
  · intro lid
    rw [calculate_amortization_filter]
    exact amortize_loan_group_chain _
  · intro r hr
    have hcalc : calculate_amortization df dim_loan =
        (drop_duplicates_by (fun n => n)
            ((sort_lex_by amortKey (amort_left_join df dim_loan)).map
              (fun r => r.loan_id))).flatMap
          (fun lid => amortize_loan_group
            ((sort_lex_by amortKey (amort_left_join df dim_loan)).filter
              (fun r => decide (r.loan_id = lid)))) := rfl
    rw [hcalc] at hr
    obtain ⟨l, _, hrg⟩ := List.mem_flatMap.mp hr
    exact amortize_loan_group_ob_nonneg r hrg

/-- Witness for C2 at the worked example. -/
theorem claim_C2_balance_monotone_witness :
    List.Chain' (fun a b : AmortRow => b.outstanding_balance ≤ a.outstanding_balance)
      ((calculate_amortization [paymentRow] [loanDimRow]).filter
        (fun r => decide (r.loan_id = 1))) ∧
    amortOutRow ∈ calculate_amortization [paymentRow] [loanDimRow] ∧
    0 ≤ amortOutRow.outstanding_balance :=
  ⟨(claim_C2_balance_monotone [paymentRow] [loanDimRow]).1 1,
    by rw [amort_example_eval]; exact List.mem_singleton_self _,
    (claim_C2_balance_monotone [paymentRow] [loanDimRow]).2 amortOutRow
      (by rw [amort_example_eval]; exact List.mem_singleton_self _)⟩

/-! #### Claim C4: sensitivity to input order -/

/-- Two repayments of loan 1 on the same `payment_date = 5`. -/
def paymentTieA : RepaymentRow := ⟨1, 1, 7, some 0, 5, 100, "PAID", 0⟩

/-- The second tied repayment, `amount_paid = 50`. -/
def paymentTieB : RepaymentRow := ⟨2, 1, 7, some 0, 5, 50, "PAID", 0⟩

def jTieA : AmortRow :=
  ⟨1, 1, 7, some 0, 5, 100, "PAID", 0, some 1200, some 12, some 12, 0, 0, 0⟩

def jTieB : AmortRow :=
  ⟨2, 1, 7, some 0, 5, 50, "PAID", 0, some 1200, some 12, some 12, 0, 0, 0⟩

/-- Outputs when `paymentTieA` is processed first. -/
def outTieA1 : AmortRow :=
  ⟨1, 1, 7, some 0, 5, 100, "PAID", 0, some 1200, some 12, some 12, 12, 88, 1112⟩

def outTieB1 : AmortRow :=
  ⟨2, 1, 7, some 0, 5, 50, "PAID", 0, some 1200, some 12, some 12,
    278 / 25, 972 / 25, 26828 / 25⟩

/-- Outputs when `paymentTieB` is processed first. -/
def outTieB2 : AmortRow :=
  ⟨2, 1, 7, some 0, 5, 50, "PAID", 0, some 1200, some 12, some 12, 12, 38, 1162⟩

def outTieA2 : AmortRow :=
  ⟨1, 1, 7, some 0, 5, 100, "PAID", 0, some 1200, some 12, some 12,
    581 / 50, 4419 / 50, 53681 / 50⟩

theorem amort_tie_eval1 :
    calculate_amortization [paymentTieA, paymentTieB] [loanDimRow] =
      [outTieA1, outTieB1] := by
  have hcalc : calculate_amortization [paymentTieA, paymentTieB] [loanDimRow] =
      (drop_duplicates_by (fun n => n)
          ((sort_lex_by amortKey (amort_left_join [paymentTieA, paymentTieB] [loanDimRow])).map
            (fun r => r.loan_id))).flatMap
        (fun lid => amortize_loan_group
          ((sort_lex_by amortKey
              (amort_left_join [paymentTieA, paymentTieB] [loanDimRow])).filter
            (fun r => decide (r.loan_id = lid)))) := rfl
  have hfact : sort_lex_by amortKey (amort_left_join [paymentTieA, paymentTieB] [loanDimRow]) =
      [jTieA, jTieB] := by decide
  rw [hcalc, hfact]
  have hids : drop_duplicates_by (fun n => n) ([jTieA, jTieB].map (fun r => r.loan_id)) =
      [1] := by decide
  rw [hids, List.flatMap_cons, List.flatMap_nil, List.append_nil]
  have hfil : [jTieA, jTieB].filter (fun r => decide (r.loan_id = 1)) = [jTieA, jTieB] := by
    decide
  rw [hfil, @amortize_loan_group_cons_fold jTieA [jTieB] 1200 12 rfl rfl]
  simp only [amort_fold, amort_step]
  norm_num [jTieA, jTieB, outTieA1, outTieB1, min_def, max_def]

theorem amort_tie_eval2 :
    calculate_amortization [paymentTieB, paymentTieA] [loanDimRow] =
      [outTieB2, outTieA2] := by
  have hcalc : calculate_amortization [paymentTieB, paymentTieA] [loanDimRow] =
      (drop_duplicates_by (fun n => n)
          ((sort_lex_by amortKey (amort_left_join [paymentTieB, paymentTieA] [loanDimRow])).map
            (fun r => r.loan_id))).flatMap
        (fun lid => amortize_loan_group
          ((sort_lex_by amortKey
              (amort_left_join [paymentTieB, paymentTieA] [loanDimRow])).filter
            (fun r => decide (r.loan_id = lid)))) := rfl
  have hfact : sort_lex_by amortKey (amort_left_join [paymentTieB, paymentTieA] [loanDimRow]) =
      [jTieB, jTieA] := by decide
  rw [hcalc, hfact]
  have hids : drop_duplicates_by (fun n => n) ([jTieB, jTieA].map (fun r => r.loan_id)) =
      [1] := by decide
  rw [hids, List.flatMap_cons, List.flatMap_nil, List.append_nil]
  have hfil : [jTieB, jTieA].filter (fun r => decide (r.loan_id = 1)) = [jTieB, jTieA] := by
    decide
  rw [hfil, @amortize_loan_group_cons_fold jTieB [jTieA] 1200 12 rfl rfl]
  simp only [amort_fold, amort_step]
  norm_num [jTieA, jTieB, outTieB2, outTieA2, min_def, max_def]

/-- Counterexample to claim C4 as stated: the two orders of the same two-row
repayment set (a permutation, tied on `(loan_id, payment_date)`) give the
`repayment_id = 2` row different `interest_paid` values (`12` versus
`278/25 = 11.12`). -/
theorem claim_C4_counterexample :
    [paymentTieB, paymentTieA].Perm [paymentTieA, paymentTieB] ∧
    ((calculate_amortization [paymentTieB, paymentTieA] [loanDimRow]).filter
        (fun r => decide (r.repayment_id = 2))).map (fun r => r.interest_paid) ≠
      ((calculate_amortization [paymentTieA, paymentTieB] [loanDimRow]).filter
        (fun r => decide (r.repayment_id = 2))).map (fun r => r.interest_paid) := by
  constructor
  · exact List.Perm.swap _ _ _
  · rw [amort_tie_eval1, amort_tie_eval2]
    have h1 : ([outTieB2, outTieA2].filter (fun r => decide (r.repayment_id = 2))).map
        (fun r => r.interest_paid) = [outTieB2.interest_paid] := by
      rfl
    have h2 : ([outTieA1, outTieB1].filter (fun r => decide (r.repayment_id = 2))).map
        (fun r => r.interest_paid) = [outTieB1.interest_paid] := by
      rfl
    rw [h1, h2]
    intro hc
    have : outTieB2.interest_paid = outTieB1.interest_paid := by
      simpa using hc
    rw [show outTieB2.interest_paid = 12 from rfl,
      show outTieB1.interest_paid = 278 / 25 from rfl] at this
    norm_num at this

/-! For the amended claim: under unique `dim_loan` keys the join is a `map`. -/

/-- The single-row enrichment performed by the left join when `dim_loan` has
at most one row per `loan_id`. -/
def join_row (dim_loan : List DimLoanRow) (r : RepaymentRow) : AmortRow :=
  match dim_loan.filter (fun d => decide (d.loan_id = r.loan_id)) with
  | [] => ⟨r.repayment_id, r.loan_id, r.customer_id, r.due_date, r.payment_date,
      r.amount_paid, r.status, r.days_past_due, none, none, none, 0, 0, 0⟩
  | d :: _ => ⟨r.repayment_id, r.loan_id, r.customer_id, r.due_date, r.payment_date,
      r.amount_paid, r.status, r.days_past_due, d.loan_amount, d.interest_rate,
      d.term_months, 0, 0, 0⟩

theorem join_row_key (dim_loan : List DimLoanRow) (r : RepaymentRow) :
    amortKey (join_row dim_loan r) = (r.loan_id, r.payment_date) := by
  rw [join_row]
  cases dim_loan.filter (fun d => decide (d.loan_id = r.loan_id)) <;> rfl

theorem filter_loan_id_single {dim_loan : List DimLoanRow}
    (hnd : (dim_loan.map (fun d => d.loan_id)).Nodup) (n : Nat) :
    dim_loan.filter (fun d => decide (d.loan_id = n)) = [] ∨
      ∃ d, dim_loan.filter (fun d => decide (d.loan_id = n)) = [d] := by
  cases h : dim_loan.filter (fun d => decide (d.loan_id = n)) with
  | nil => exact Or.inl rfl
  | cons d tl =>
    refine Or.inr ⟨d, ?_⟩
    cases htl : tl with
    | nil => rfl
    | cons d' tl' =>
      exfalso
      have hsub : (d :: tl).Sublist dim_loan := h ▸ List.filter_sublist dim_loan
      have hnd' : ((d :: tl).map (fun d => d.loan_id)).Nodup :=
        List.Nodup.sublist (List.Sublist.map _ hsub) hnd
      have hd : d.loan_id = n := by
        have := List.mem_filter.mp (h ▸ List.mem_cons_self d tl)
        simpa using this.2
      have hd' : d'.loan_id = n := by
        have hmem : d' ∈ dim_loan.filter (fun d => decide (d.loan_id = n)) := by
          rw [h, htl]
          exact List.mem_cons_of_mem d (List.mem_cons_self d' tl')
        simpa using (List.mem_filter.mp hmem).2
      rw [htl] at hnd'
      simp only [List.map_cons, List.nodup_cons, List.mem_cons, List.mem_map] at hnd'
      exact hnd'.1 (Or.inl (hd.trans hd'.symm))

theorem amort_left_join_eq_map {dim_loan : List DimLoanRow}
    (hnd : (dim_loan.map (fun d => d.loan_id)).Nodup) (df : List RepaymentRow) :
    amort_left_join df dim_loan = df.map (join_row dim_loan) := by
  induction df with
  | nil => rfl
  | cons r df ih =>
    rw [amort_left_join] at ih ⊢
    rw [List.flatMap_cons, ih, List.map_cons]
    rcases filter_loan_id_single hnd r.loan_id with h | ⟨d, h⟩
    · simp [h, join_row]
    · simp [h, join_row]

/-- Amended claim C4: when no two repayment rows share the same
`(loan_id, payment_date)` and `dim_loan` has at most one row per `loan_id`,
re-ordering the input rows does not change the output of
`calculate_amortization` at all (the engine re-sorts internally); without the
tie-freedom hypothesis this fails, see the counterexample. -/
theorem claim_C4_order_insensitive :
    ∀ (df df' : List RepaymentRow) (dim_loan : List DimLoanRow),
      df.Perm df' →
      df.Pairwise (fun a b => (a.loan_id, a.payment_date) ≠ (b.loan_id, b.payment_date)) →
      (dim_loan.map (fun d => d.loan_id)).Nodup →
      calculate_amortization df dim_loan = calculate_amortization df' dim_loan := by
  intro df df' dim_loan hperm hpw hnd
  have hsorteq : sort_lex_by amortKey (amort_left_join df dim_loan) =
      sort_lex_by amortKey (amort_left_join df' dim_loan) := by
    apply eq_of_perm_of_sorted_of_nodup_keys amortKey lexLe (fun p q => lexLe_antisymm)
    · calc sort_lex_by amortKey (amort_left_join df dim_loan)
          ~ amort_left_join df dim_loan := List.perm_insertionSort _ _
        _ ~ amort_left_join df' dim_loan := by
            rw [amort_left_join_eq_map hnd, amort_left_join_eq_map hnd]
            exact List.Perm.map _ hperm
        _ ~ sort_lex_by amortKey (amort_left_join df' dim_loan) :=
            (List.perm_insertionSort _ _).symm
    · exact List.sorted_insertionSort (lexRelBy amortKey) (amort_left_join df dim_loan)
    · exact List.sorted_insertionSort (lexRelBy amortKey) (amort_left_join df' dim_loan)
    · have hjoin : (amort_left_join df dim_loan).Pairwise
          (fun a b => amortKey a ≠ amortKey b) := by
        rw [amort_left_join_eq_map hnd, List.pairwise_map]
        refine hpw.imp ?_
        intro a b hab
        rw [join_row_key, join_row_key]
        exact hab
      exact ((List.perm_insertionSort _ _).pairwise_iff
        (fun hxy => hxy ∘ Eq.symm)).mpr hjoin
  have h1 : calculate_amortization df dim_loan =
      (drop_duplicates_by (fun n => n)
          ((sort_lex_by amortKey (amort_left_join df dim_loan)).map
            (fun r => r.loan_id))).flatMap
        (fun lid => amortize_loan_group
          ((sort_lex_by amortKey (amort_left_join df dim_loan)).filter
            (fun r => decide (r.loan_id = lid)))) := rfl
  have h2 : calculate_amortization df' dim_loan =
      (drop_duplicates_by (fun n => n)
          ((sort_lex_by amortKey (amort_left_join df' dim_loan)).map
            (fun r => r.loan_id))).flatMap
        (fun lid => amortize_loan_group
          ((sort_lex_by amortKey (amort_left_join df' dim_loan)).filter
            (fun r => decide (r.loan_id = lid)))) := rfl
  rw [h1, h2, hsorteq]

/-- Witness for the amended C4 at a two-loan input with distinct
`(loan_id, payment_date)` keys. -/
theorem claim_C4_order_insensitive_witness :
    [paymentRow, paymentNoDim].Perm [paymentNoDim, paymentRow] ∧
    [paymentRow, paymentNoDim].Pairwise
      (fun a b => (a.loan_id, a.payment_date) ≠ (b.loan_id, b.payment_date)) ∧
    (([loanDimRow] : List DimLoanRow).map (fun d => d.loan_id)).Nodup ∧
    calculate_amortization [paymentRow, paymentNoDim] [loanDimRow] =
      calculate_amortization [paymentNoDim, paymentRow] [loanDimRow] :=
  ⟨List.Perm.swap _ _ _, by decide, by decide,
    claim_C4_order_insensitive [paymentRow, paymentNoDim] [paymentNoDim, paymentRow]
      [loanDimRow] (List.Perm.swap _ _ _) (by decide) (by decide)⟩

/-- Claim C3: on every output row whose joined `loan_amount` and
`interest_rate` are present, `principal_paid + interest_paid = amount_paid`
(exactly, in `ℚ`). -/
theorem claim_C3_conservation :
    ∀ (df : List RepaymentRow) (dim_loan : List DimLoanRow) (r : AmortRow),
      r ∈ calculate_amortization df dim_loan →
      r.loan_amount.isSome = true → r.interest_rate.isSome = true →
      r.principal_paid + r.interest_paid = r.amount_paid := by
  intro df dim_loan r hr _ _
  have hcalc : calculate_amortization df dim_loan =
      (drop_duplicates_by (fun n => n)
          ((sort_lex_by amortKey (amort_left_join df dim_loan)).map
            (fun r => r.loan_id))).flatMap
        (fun lid => amortize_loan_group
          ((sort_lex_by amortKey (amort_left_join df dim_loan)).filter
            (fun r => decide (r.loan_id = lid)))) := rfl
  rw [hcalc] at hr
  obtain ⟨l, _, hrg⟩ := List.mem_flatMap.mp hr
  exact amortize_loan_group_conservation r hrg

/-- Witness for C3 at the worked example: `88 + 12 = 100`. -/
theorem claim_C3_conservation_witness :
    amortOutRow ∈ calculate_amortization [paymentRow] [loanDimRow] ∧
    amortOutRow.loan_amount.isSome = true ∧ amortOutRow.interest_rate.isSome = true ∧
    amortOutRow.principal_paid + amortOutRow.interest_paid = amortOutRow.amount_paid :=
  ⟨by rw [amort_example_eval]; exact List.mem_singleton_self _, by decide, by decide,
    claim_C3_conservation [paymentRow] [loanDimRow] amortOutRow
      (by rw [amort_example_eval]; exact List.mem_singleton_self _)
      (by decide) (by decide)⟩

/-! ### Portfolio KPIs (`calculate_portfolio_kpis`)

The function joins the fact table with `dim_loan`, aggregates per `loan_id`
(`sum` of `amount_paid`, `last` status, `min` due date, `max` days past due,
`first` loan characteristics — pandas `last`/`first`/`min`/`max` aggregations
skip nulls), filters to `approval_status == "APPROVED"`, and derives the KPI
scalars.  `today` abstracts `datetime.now()`; due dates are month indices, so
`(today.year - x.year) * 12 + (today.month - x.month)` is `today - d`.
Means are written `sum / length`; in `ℚ` the empty mean is `0 / 0 = 0`, which
only ever stands in for a pandas `NaN` on paths that also guard on it. -/

/-- A fact row joined with
`dim_loan[["loan_id", "loan_amount", "interest_rate", "term_months", "approval_status"]]`. -/
structure KpiLoanRow where
  loan_id : Nat
  customer_id : Nat
  due_date : Option Int
  payment_date : Int
  amount_paid : ℚ
  status : String
  days_past_due : ℚ
  loan_amount : Option ℚ
  interest_rate : Option ℚ
  term_months : Option ℚ
  approval_status : Option String
deriving DecidableEq

/-- The left merge of the fact table with the `dim_loan` columns. -/
def kpi_join (fact_df : List FactRow) (dim_loan : List DimLoanRow) : List KpiLoanRow :=
  fact_df.flatMap (fun r =>
    let hits := dim_loan.filter (fun d => decide (d.loan_id = r.loan_id))
    if hits.isEmpty then
      [⟨r.loan_id, r.customer_id, r.due_date, r.payment_date, r.amount_paid, r.status,
        r.days_past_due, none, none, none, none⟩]
    else
      hits.map (fun d =>
        ⟨r.loan_id, r.customer_id, r.due_date, r.payment_date, r.amount_paid, r.status,
          r.days_past_due, d.loan_amount, d.interest_rate, d.term_months,
          d.approval_status⟩))

/-- One row of `loan_summary = fact_with_loan.groupby("loan_id").agg(...)`. -/
structure LoanSummary where
  loan_id : Nat
  amount_paid_sum : ℚ
  status_last : String
  due_date_min : Option Int
  days_past_due_max : ℚ
  loan_amount_first : Option ℚ
  interest_rate_first : Option ℚ
  term_months_first : Option ℚ
  approval_status_first : Option String
  customer_id_first : Nat
deriving DecidableEq

/-- Aggregation of one loan's joined rows (pandas `agg` skips nulls:  `first`
is the first non-null value, `min`/`max` ignore nulls). -/
def loan_group_summary (g : List KpiLoanRow) (lid : Nat) : LoanSummary :=
  { loan_id := lid
    amount_paid_sum := (g.map (fun r => r.amount_paid)).sum
    status_last := (g.map (fun r => r.status)).getLastD ""
    due_date_min :=
      match g.filterMap (fun r => r.due_date) with
      | [] => none
      | d :: ds => some (ds.foldl min d)
    days_past_due_max :=
      match g.map (fun r => r.days_past_due) with
      | [] => 0
      | d :: ds => ds.foldl max d
    loan_amount_first := (g.filterMap (fun r => r.loan_amount)).head?
    interest_rate_first := (g.filterMap (fun r => r.interest_rate)).head?
    term_months_first := (g.filterMap (fun r => r.term_months)).head?
    approval_status_first := (g.filterMap (fun r => r.approval_status)).head?
    customer_id_first := (g.map (fun r => r.customer_id)).headD 0 }

/-- The per-loan summary table (its order is irrelevant downstream — every
consumer aggregates over it). -/
def portfolio_loan_summaries (fact_df : List FactRow) (dim_loan : List DimLoanRow) :
    List LoanSummary :=
  let joined := kpi_join fact_df dim_loan
  (drop_duplicates_by (fun n => n) (joined.map (fun r => r.loan_id))).map
    (fun lid => loan_group_summary (joined.filter (fun r => decide (r.loan_id = lid))) lid)

/-- `active_loans = loan_summary[loan_summary["approval_status"] == "APPROVED"]`. -/
def portfolio_active_loans (fact_df : List FactRow) (dim_loan : List DimLoanRow) :
    List LoanSummary :=
  (portfolio_loan_summaries fact_df dim_loan).filter
    (fun s => decide (s.approval_status_first = some "APPROVED"))

/-- `outstanding_balance = (loan_amount - amount_paid).clip(lower=0)`; null
`loan_amount` stays null and is skipped by the sums. -/
def loan_outstanding (s : LoanSummary) : Option ℚ :=
  s.loan_amount_first.map (fun la => max 0 (la - s.amount_paid_sum))

/-- `elapsed_months`, clipped at 0, with 0 for a null start date. -/
def loan_elapsed_months (today : Int) (s : LoanSummary) : ℚ :=
  max 0 (match s.due_date_min with
    | none => 0
    | some d => ((today - d : Int) : ℚ))

/-- `interest_earned = loan_amount * (interest_rate / 100) * (elapsed_months / 12)`;
null if either loan characteristic is null. -/
def loan_interest_earned (today : Int) (s : LoanSummary) : Option ℚ :=
  match s.loan_amount_first, s.interest_rate_first with
  | some la, some ir => some (la * (ir / 100) * (loan_elapsed_months today s / 12))
  | _, _ => none

/-- Loans counted by the early-delinquency numerator: the latest repayment row
per loan (over all of `fact_df`, not only active loans) has
`1 ≤ days_past_due ≤ 90`. -/
def portfolio_early_delinquent_count (fact_df : List FactRow) : Nat :=
  ((drop_duplicates_by (fun n => n) (fact_df.map (fun r => r.loan_id))).filter
    (fun lid =>
      match ((sort_asc_by (fun r => r.payment_date) fact_df).filter
          (fun r => decide (r.loan_id = lid))).getLast? with
      | some r => decide (1 ≤ r.days_past_due ∧ r.days_past_due ≤ 90)
      | none => false)).length

/-- `repayment_history` per customer: `100 * (#PAID / #rows)`, null for a
customer with no fact rows (the left join produces `NaN` there). -/
def repayment_history_score (fact_df : List FactRow) (c : Nat) : Option ℚ :=
  let rows := fact_df.filter (fun r => decide (r.customer_id = c))
  if rows.isEmpty then none
  else some ((((rows.filter (fun r => decide (r.status = "PAID"))).length : ℚ) /
    (rows.length : ℚ)) * 100)

/-- The rows of `customer_risk_df`: active loans left-joined with
`dim_customer[["customer_id", "credit_score"]]`, keeping the customer key and
the (possibly null) credit score. -/
def customer_risk_rows (fact_df : List FactRow) (dim_loan : List DimLoanRow)
    (dim_customer : List DimCustomerRow) : List (Nat × Option ℚ) :=
  (portfolio_active_loans fact_df dim_loan).flatMap (fun s =>
    let hits := dim_customer.filter (fun c => decide (c.customer_id = s.customer_id_first))
    if hits.isEmpty then [(s.customer_id_first, none)]
    else hits.map (fun c => (s.customer_id_first, c.credit_score)))

/-- `avg_credit_score = customer_risk_df["credit_score"].mean()` — `none`
models the `NaN` produced when no joined credit score exists. -/
def portfolio_avg_credit_score (fact_df : List FactRow) (dim_loan : List DimLoanRow)
    (dim_customer : List DimCustomerRow) : Option ℚ :=
  let xs := (customer_risk_rows fact_df dim_loan dim_customer).filterMap (fun p => p.2)
  if xs.isEmpty then none else some (xs.sum / (xs.length : ℚ))

/-- `avg_repayment_history`: the null-skipping mean of the per-row repayment
history scores. -/
def portfolio_avg_repayment_history (fact_df : List FactRow) (dim_loan : List DimLoanRow)
    (dim_customer : List DimCustomerRow) : ℚ :=
  let xs := (customer_risk_rows fact_df dim_loan dim_customer).filterMap
    (fun p => repayment_history_score fact_df p.1)
  xs.sum / (xs.length : ℚ)

/-- `avg_days_past_due = active_loans["days_past_due"].fillna(0).mean()` (the
column is total in this model, so `fillna` is the identity). -/
def portfolio_avg_days_past_due (fact_df : List FactRow) (dim_loan : List DimLoanRow) : ℚ :=
  ((portfolio_active_loans fact_df dim_loan).map (fun s => s.days_past_due_max)).sum /
    ((portfolio_active_loans fact_df dim_loan).length : ℚ)

/-- The one-row output of `calculate_portfolio_kpis` (timestamps omitted). -/
structure PortfolioKpis where
  default_rate_pct : ℚ
  portfolio_yield_pct : ℚ
  early_delinquency_ratio_pct : ℚ
  exposure_at_default : ℚ
  customer_risk_score : ℚ
  npl_ratio_pct : ℚ
  expected_loss : ℚ
  total_active_loans : Nat
  total_defaulted_loans : Nat
  total_outstanding_balance : ℚ
  total_interest_earned : ℚ
  avg_repayment_history_score : ℚ
deriving DecidableEq

/-- `calculate_portfolio_kpis` — the seven KPI scalars with their
zero-denominator guards. -/
def calculate_portfolio_kpis (fact_df : List FactRow) (dim_customer : List DimCustomerRow)
    (dim_loan : List DimLoanRow) (today : Int) : PortfolioKpis :=
  let active := portfolio_active_loans fact_df dim_loan
  let total_active_loans := active.length
  let total_outstanding := (active.filterMap loan_outstanding).sum
  let total_interest := (active.filterMap (loan_interest_earned today)).sum
  let num_defaulted := (active.filter (fun s => decide (s.status_last = "MISSED"))).length
  let default_rate :=
    if 0 < total_active_loans then ((num_defaulted : ℚ) / (total_active_loans : ℚ)) * 100
    else 0
  let portfolio_yield :=
    if 0 < total_outstanding then (total_interest / total_outstanding) * 100 else 0
  let early_ratio :=
    if 0 < total_active_loans then
      ((portfolio_early_delinquent_count fact_df : ℚ) / (total_active_loans : ℚ)) * 100
    else 0
  let ead := ((active.filter (fun s => decide (s.status_last = "MISSED"))).filterMap
    loan_outstanding).sum
  let npl_balance := ((active.filter
    (fun s => decide ((90 : ℚ) < s.days_past_due_max))).filterMap loan_outstanding).sum
  let npl_ratio_pct :=
    if 0 < total_outstanding then (npl_balance / total_outstanding) * 100 else 0
  let avg_rep := portfolio_avg_repayment_history fact_df dim_loan dim_customer
  let avg_days := portfolio_avg_days_past_due fact_df dim_loan
  let transaction_score := max 0 (100 - (avg_days / 90) * 100)
  let risk :=
    match portfolio_avg_credit_score fact_df dim_loan dim_customer with
    | some ac =>
        0.5 * max 0 (min 100 ((ac - 300) / (850 - 300) * 100)) +
          0.3 * transaction_score + 0.2 * avg_rep
    | none => 0
  let expected_loss := ead * (default_rate / 100) * 0.45
  ⟨default_rate, portfolio_yield, early_ratio, ead, risk, npl_ratio_pct, expected_loss,
    total_active_loans, num_defaulted, total_outstanding, total_interest, avg_rep⟩

/-- Claim C7: with zero active (APPROVED) loans, `default_rate_pct` and
`early_delinquency_ratio_pct` are exactly 0; with zero total outstanding
balance, `portfolio_yield_pct` and `npl_ratio_pct` are exactly 0 — the four
ratio computations never divide by a zero denominator. -/
theorem claim_C7_kpi_denominator_guards :
    ∀ (fact_df : List FactRow) (dim_customer : List DimCustomerRow)
      (dim_loan : List DimLoanRow) (today : Int),
      ((portfolio_active_loans fact_df dim_loan).length = 0 →
        (calculate_portfolio_kpis fact_df dim_customer dim_loan today).default_rate_pct = 0 ∧
        (calculate_portfolio_kpis fact_df dim_customer dim_loan
          today).early_delinquency_ratio_pct = 0) ∧
      (((portfolio_active_loans fact_df dim_loan).filterMap loan_outstanding).sum = 0 →
        (calculate_portfolio_kpis fact_df dim_customer dim_loan today).portfolio_yield_pct
            = 0 ∧
        (calculate_portfolio_kpis fact_df dim_customer dim_loan today).npl_ratio_pct = 0) := by
  intro fact_df dim_customer dim_loan today
  constructor
  · intro h
    constructor
    · show (if 0 < (portfolio_active_loans fact_df dim_loan).length then _ else 0) = 0
      rw [h]
      norm_num
    · show (if 0 < (portfolio_active_loans fact_df dim_loan).length then _ else 0) = 0
      rw [h]
      norm_num
  · intro h
    constructor
    · show (if 0 < ((portfolio_active_loans fact_df dim_loan).filterMap
          loan_outstanding).sum then _ else 0) = 0
      rw [h]
      norm_num
    · show (if 0 < ((portfolio_active_loans fact_df dim_loan).filterMap
          loan_outstanding).sum then _ else 0) = 0
      rw [h]
      norm_num

/-- Witness for C7 at empty inputs: no active loans, zero outstanding, all
four ratios 0. -/
theorem claim_C7_kpi_denominator_guards_witness :
    (portfolio_active_loans [] []).length = 0 ∧
    ((portfolio_active_loans [] []).filterMap loan_outstanding).sum = 0 ∧
    (calculate_portfolio_kpis [] [] [] 0).default_rate_pct = 0 ∧
    (calculate_portfolio_kpis [] [] [] 0).early_delinquency_ratio_pct = 0 ∧
    (calculate_portfolio_kpis [] [] [] 0).portfolio_yield_pct = 0 ∧
    (calculate_portfolio_kpis [] [] [] 0).npl_ratio_pct = 0 :=
  ⟨rfl, rfl,
    ((claim_C7_kpi_denominator_guards [] [] [] 0).1 rfl).1,
    ((claim_C7_kpi_denominator_guards [] [] [] 0).1 rfl).2,
    ((claim_C7_kpi_denominator_guards [] [] [] 0).2 rfl).1,
    ((claim_C7_kpi_denominator_guards [] [] [] 0).2 rfl).2⟩

/-- Claim C10: when no active-loan customer has a joined credit score (the
null-skipping mean of `credit_score` is undefined), the reported
`customer_risk_score` is exactly 0, whatever the transaction and repayment
history scores are; the 0.5/0.3/0.2 weighted formula is used only when the
mean credit score is defined. -/
theorem claim_C10_risk_score_guard :
    ∀ (fact_df : List FactRow) (dim_customer : List DimCustomerRow)
      (dim_loan : List DimLoanRow) (today : Int),
      ((customer_risk_rows fact_df dim_loan dim_customer).filterMap (fun p => p.2) = [] →
        (calculate_portfolio_kpis fact_df dim_customer dim_loan today).customer_risk_score
          = 0) ∧
      (∀ ac : ℚ, portfolio_avg_credit_score fact_df dim_loan dim_customer = some ac →
        (calculate_portfolio_kpis fact_df dim_customer dim_loan today).customer_risk_score =
          0.5 * max 0 (min 100 ((ac - 300) / (850 - 300) * 100)) +
            0.3 * max 0 (100 - (portfolio_avg_days_past_due fact_df dim_loan / 90) * 100) +
            0.2 * portfolio_avg_repayment_history fact_df dim_loan dim_customer) := by
  intro fact_df dim_customer dim_loan today
  constructor
  · intro h
    have hnone : portfolio_avg_credit_score fact_df dim_loan dim_customer = none := by
      rw [portfolio_avg_credit_score]
      simp [h]
    simp only [calculate_portfolio_kpis, hnone]
  · intro ac hac
    simp only [calculate_portfolio_kpis, hac]

/-- A fact row for an APPROVED loan whose customer has no credit record. -/
def factRowW : FactRow := ⟨1, 1, 7, some 0, 5, 100, "PAID", 10, 88, 12, 1112⟩

/-- Witness for C10: one active loan, empty `dim_customer` — no credit score
joins, so the risk score is 0 even though the loan is active. -/
theorem claim_C10_risk_score_guard_witness :
    (customer_risk_rows [factRowW] [loanDimRow] []).filterMap (fun p => p.2) = [] ∧
    (calculate_portfolio_kpis [factRowW] [] [loanDimRow] 0).customer_risk_score = 0 :=
  ⟨by decide, (claim_C10_risk_score_guard [factRowW] [] [loanDimRow] 0).1 (by decide)⟩

/-! ### Region extraction (`calculate_regional_delinquency_kpis` and
`calculate_customer_drilldown_kpis`)

Both functions derive a `region` column with the same lambda:
`x.split(",")[-2].strip() if pd.notna(x) and len(x.split(",")) >= 2 else "Unknown"`.
Python's `split` and `strip` are transcribed structurally over the character
list (`"".split(",") == [""]`; `strip` removes surrounding whitespace). -/

/-- Python `x.split(",")` over the character list. -/
def split_on_commas : List Char → List (List Char)
  | [] => [[]]
  | c :: cs =>
      match split_on_commas cs with
      | [] => if c = ',' then [[], [c]] else [[c]]
      | p :: ps => if c = ',' then [] :: p :: ps else (c :: p) :: ps

/-- Python `s.strip()`: drop surrounding whitespace. -/
def strip_chars (cs : List Char) : List Char :=
  ((cs.dropWhile Char.isWhitespace).reverse.dropWhile Char.isWhitespace).reverse

/-- The region extracted from a customer address: the stripped second-to-last
comma-separated token, or `"Unknown"` for a null address or fewer than two
tokens. -/
def region_from_address (address : Option String) : String :=
  match address with
  | none => "Unknown"
  | some x =>
      let parts := split_on_commas x.toList
      if 2 ≤ parts.length then ⟨strip_chars (parts.getD (parts.length - 2) [])⟩
      else "Unknown"

/-- The `region` column assignment shared by the regional-delinquency and
customer-drilldown KPI builds. -/
def assign_regions (addresses : List (Option String)) : List String :=
  addresses.map region_from_address

/-- Counterexample to claim C8 as stated: for the spec's example address the
second-to-last comma-separated token is `" Springfield"`, so the extracted
region is `"Springfield"`, not `"IL"`. -/
theorem claim_C8_counterexample :
    region_from_address (some "12 Elm St, Springfield, IL 62701") = "Springfield" ∧
    region_from_address (some "12 Elm St, Springfield, IL 62701") ≠ "IL" := by
  refine ⟨by decide, by decide⟩

/-- Amended claim C8: the region is the second-to-last comma-separated token
of the address stripped of surrounding whitespace, "Unknown" when the address
is missing or has fewer than 2 comma-separated parts; the example address
"12 Elm St, Springfield, IL 62701" yields "Springfield" (not "IL"), and an
address without commas yields "Unknown". -/
theorem claim_C8_region_extraction :
    region_from_address none = "Unknown" ∧
    (∀ s : String, (split_on_commas s.toList).length < 2 →
      region_from_address (some s) = "Unknown") ∧
    (∀ s : String, 2 ≤ (split_on_commas s.toList).length →
      region_from_address (some s) =
        ⟨strip_chars ((split_on_commas s.toList).getD
          ((split_on_commas s.toList).length - 2) [])⟩) ∧
    region_from_address (some "12 Elm St, Springfield, IL 62701") = "Springfield" ∧
    region_from_address (some "12 Elm St Springfield IL 62701") = "Unknown" ∧
    assign_regions [some "12 Elm St, Springfield, IL 62701", none] =
      ["Springfield", "Unknown"] := by
  refine ⟨rfl, ?_, ?_, by decide, by decide, by decide⟩
  · intro s hs
    simp only [region_from_address]
    rw [if_neg (Nat.not_le.mpr hs)]
  · intro s hs
    simp only [region_from_address]
    rw [if_pos hs]

/-- Witness for the amended C8, discharging both hypotheses concretely. -/
theorem claim_C8_region_extraction_witness :
    (split_on_commas "12 Elm St Springfield IL 62701".toList).length < 2 ∧
    region_from_address (some "12 Elm St Springfield IL 62701") = "Unknown" ∧
    2 ≤ (split_on_commas "12 Elm St, Springfield, IL 62701".toList).length ∧
    region_from_address (some "12 Elm St, Springfield, IL 62701") =
      ⟨strip_chars ((split_on_commas "12 Elm St, Springfield, IL 62701".toList).getD
        ((split_on_commas "12 Elm St, Springfield, IL 62701".toList).length - 2) [])⟩ :=
  ⟨by decide, claim_C8_region_extraction.2.1 "12 Elm St Springfield IL 62701" (by decide),
    by decide,
    claim_C8_region_extraction.2.2.1 "12 Elm St, Springfield, IL 62701" (by decide)⟩

end CreditRisk
